import Mathlib

/-!
# WSCL distance tracker: a shallow embedding of `calculate_distances.js`

The script reads three CSV files, geocodes teams and events, looks up driving
distances, joins the attendance records to events by date and writes a report.

The embedding follows the script function by function:

* the built-in `Date` object is modelled after ECMAScript (time values are
  milliseconds since the epoch, `Day`, `YearFromTime`, `MakeDay`, ... as in the
  language specification); the host time zone is a parameter, because
  `getDate`, `setDate`, `getMonth` and `getFullYear` work in local time while
  `new Date("YYYY-MM-DD")` and `toISOString` work in UTC;
* plain JavaScript objects used as dictionaries are association lists with
  string keys, kept in the order in which the properties were created;
  `Object.entries` enumerates the keys that are array indices first, in
  ascending order, then the others in creation order (keys are assumed not to be
  members of `Object.prototype`);
* the two web services are oracles indexed by the number of requests made so
  far, so that any sequence of responses can be represented;
* numbers are rationals, and CSV cells are the strings they print as;
* reading the CSV files, the delay between requests, the console output and the
  metadata block of the report are left out.
-/

namespace WSCL

/-! ## ECMAScript time values -/

def msPerDay : Int := 86400000

def msPerHour : Int := 3600000

def msPerMinute : Int := 60000

def msPerSecond : Int := 1000

def Day (t : Int) : Int := t / msPerDay

def TimeWithinDay (t : Int) : Int := t % msPerDay

def DaysInYear (y : Int) : Int :=
  if y % 4 ≠ 0 then 365
  else if y % 100 ≠ 0 then 366
  else if y % 400 ≠ 0 then 365
  else 366

def DayFromYear (y : Int) : Int :=
  365 * (y - 1970) + (y - 1969) / 4 - (y - 1901) / 100 + (y - 1601) / 400

/-- The largest year `y` with `DayFromYear y ≤ n`, found from an estimate that is
off by at most one. -/
def YearFromDay (n : Int) : Int :=
  let y := 1970 + (400 * n) / 146097
  if n < DayFromYear y then y - 1
  else if DayFromYear (y + 1) ≤ n then y + 1
  else y

def YearFromTime (t : Int) : Int := YearFromDay (Day t)

def InLeapYear (y : Int) : Int := if DaysInYear y = 366 then 1 else 0

def DayWithinYear (t : Int) : Int := Day t - DayFromYear (YearFromTime t)

/-- Day within the year of the first day of month `m` (0 = January). -/
def monthStart (m : Int) (leap : Int) : Int :=
  if m = 0 then 0
  else if m = 1 then 31
  else if m = 2 then 59 + leap
  else if m = 3 then 90 + leap
  else if m = 4 then 120 + leap
  else if m = 5 then 151 + leap
  else if m = 6 then 181 + leap
  else if m = 7 then 212 + leap
  else if m = 8 then 243 + leap
  else if m = 9 then 273 + leap
  else if m = 10 then 304 + leap
  else 334 + leap

/-- The month (0 = January) of day `d` within a year, `leap` being 1 in a leap
year and 0 otherwise. -/
def monthOfYearDay (d leap : Int) : Int :=
  if d < 31 then 0
  else if d < 59 + leap then 1
  else if d < 90 + leap then 2
  else if d < 120 + leap then 3
  else if d < 151 + leap then 4
  else if d < 181 + leap then 5
  else if d < 212 + leap then 6
  else if d < 243 + leap then 7
  else if d < 273 + leap then 8
  else if d < 304 + leap then 9
  else if d < 334 + leap then 10
  else 11

def MonthFromTime (t : Int) : Int :=
  monthOfYearDay (DayWithinYear t) (InLeapYear (YearFromTime t))

def DateFromTime (t : Int) : Int :=
  DayWithinYear t - monthStart (MonthFromTime t) (InLeapYear (YearFromTime t)) + 1

def HourFromTime (t : Int) : Int := (t / msPerHour) % 24

def MinFromTime (t : Int) : Int := (t / msPerMinute) % 60

def SecFromTime (t : Int) : Int := (t / msPerSecond) % 60

def msFromTime (t : Int) : Int := t % msPerSecond

/-- The day number of the given day of the given month (0 = January); months
outside 0..11 carry into the year, days outside the month carry over. -/
def MakeDay (year month date : Int) : Int :=
  let ym := year + month / 12
  let mn := month % 12
  DayFromYear ym + monthStart mn (InLeapYear ym) + date - 1

def MakeDate (day time : Int) : Int := day * msPerDay + time

/-- A time value, or `none` for NaN when it is out of the representable range. -/
def TimeClip (t : Int) : Option Int :=
  if 8640000000000000 < |t| then none else some t

/-! ## The host: time zone and the implementation-defined part of `Date.parse` -/

/-- What the script takes from the machine it runs on. `utcOffset t` is the
offset (ms) of local time from UTC at the UTC instant `t`, `localOffset t` the
offset used to read the local time value `t` back as UTC. `parseOther` is what
`Date.parse` answers on a string that is not of the form `YYYY-MM-DD`. -/
structure Host where
  utcOffset : Int → Int
  localOffset : Int → Int
  parseOther : String → Option Int

def LocalTime (h : Host) (t : Int) : Int := t + h.utcOffset t

def UTC (h : Host) (t : Int) : Int := t - h.localOffset t

/-- A host whose clock is a constant `c` milliseconds ahead of UTC. -/
def fixedOffsetHost (c : Int) : Host :=
  { utcOffset := fun _ => c, localOffset := fun _ => c, parseOther := fun _ => none }

def utcHost : Host := fixedOffsetHost 0

/-- Day number of the `k`-th Sunday (k = 1, 2, ...) of month `m` (0 = January). -/
def nthSunday (year m k : Int) : Int :=
  let first := MakeDay year m 1
  first + (3 - first) % 7 + 7 * (k - 1)

/-- US Pacific time under the rules in force since 2007: UTC-8, and UTC-7 from
02:00 on the second Sunday of March to 02:00 on the first Sunday of November. -/
def pacificHost : Host :=
  { utcOffset := fun t =>
      let y := YearFromTime t
      if nthSunday y 2 2 * msPerDay + 10 * msPerHour ≤ t
          ∧ t < nthSunday y 10 1 * msPerDay + 9 * msPerHour
      then -7 * msPerHour else -8 * msPerHour
    localOffset := fun t =>
      let y := YearFromTime t
      if nthSunday y 2 2 * msPerDay + 3 * msPerHour ≤ t
          ∧ t < nthSunday y 10 1 * msPerDay + 2 * msPerHour
      then -7 * msPerHour else -8 * msPerHour
    parseOther := fun _ => none }

/-! ## Strings of digits -/

def digitChar (n : Nat) : Char :=
  match n % 10 with
  | 0 => '0'
  | 1 => '1'
  | 2 => '2'
  | 3 => '3'
  | 4 => '4'
  | 5 => '5'
  | 6 => '6'
  | 7 => '7'
  | 8 => '8'
  | _ => '9'

/-- The last `w` decimal digits of `n`, padded with zeros. -/
def padDigits : Nat → Nat → List Char
  | 0, _ => []
  | w + 1, n => padDigits w (n / 10) ++ [digitChar n]

def digitVal (c : Char) : Option Int :=
  if 48 ≤ c.toNat ∧ c.toNat ≤ 57 then some ((c.toNat : Int) - 48) else none

/-- The fields of a string of the form `YYYY-MM-DD`. -/
def isoDateFields (s : String) : Option (Int × Int × Int) :=
  match s.data with
  | [y1, y2, y3, y4, s1, m1, m2, s2, d1, d2] =>
    if s1 = '-' ∧ s2 = '-' then
      match digitVal y1, digitVal y2, digitVal y3, digitVal y4,
            digitVal m1, digitVal m2, digitVal d1, digitVal d2 with
      | some a, some b, some c, some d, some e, some f, some g, some h =>
        some (1000 * a + 100 * b + 10 * c + d, 10 * e + f, 10 * g + h)
      | _, _, _, _, _, _, _, _ => none
    else none
  | _ => none

/-! ## The `Date` object -/

/-- A `Date` holds a time value, or NaN (`none`, an invalid date). -/
abbrev JSDate := Option Int

inductive JsError where
  | RangeError (msg : String)
  deriving DecidableEq, Repr

/-- The constructor `new Date(s)` on a string. A date-only string is read as UTC
midnight; as in V8 the month must be 1..12 and the day 1..31, a day past the
end of the month carrying over. -/
def newDate (h : Host) (s : String) : JSDate :=
  match isoDateFields s with
  | some (y, m, d) =>
    if 1 ≤ m ∧ m ≤ 12 ∧ 1 ≤ d ∧ d ≤ 31 then TimeClip (MakeDate (MakeDay y (m - 1) d) 0)
    else none
  | none => h.parseOther s

def getDate (h : Host) (d : JSDate) : Option Int :=
  d.map fun t => DateFromTime (LocalTime h t)

def getMonth (h : Host) (d : JSDate) : Option Int :=
  d.map fun t => MonthFromTime (LocalTime h t)

def getFullYear (h : Host) (d : JSDate) : Option Int :=
  d.map fun t => YearFromTime (LocalTime h t)

/-- The method `setDate(dt)`, returning the new state of the date. -/
def setDate (h : Host) (d : JSDate) (dt : Option Int) : JSDate :=
  match d, dt with
  | some t, some n =>
    let t := LocalTime h t
    let newDate := MakeDate (MakeDay (YearFromTime t) (MonthFromTime t) n) (TimeWithinDay t)
    TimeClip (UTC h newDate)
  | _, _ => none

def isoYear (y : Int) : List Char :=
  if 0 ≤ y ∧ y ≤ 9999 then padDigits 4 y.toNat
  else if 0 ≤ y then '+' :: padDigits 6 y.toNat
  else '-' :: padDigits 6 (-y).toNat

/-- The text `YYYY-MM-DD` (or with an expanded year) of a calendar date. -/
def isoDateText (y m d : Int) : List Char :=
  isoYear y ++ ('-' :: (padDigits 2 m.toNat ++ ('-' :: padDigits 2 d.toNat)))

def isoTimeText (t : Int) : List Char :=
  padDigits 2 (HourFromTime t).toNat ++ (':' :: (padDigits 2 (MinFromTime t).toNat
    ++ (':' :: (padDigits 2 (SecFromTime t).toNat
    ++ ('.' :: padDigits 3 (msFromTime t).toNat)))))

/-- The date part of the ISO text of a time value, in UTC. -/
def isoDateOfTime (t : Int) : List Char :=
  isoDateText (YearFromTime t) (MonthFromTime t + 1) (DateFromTime t)

/-- The method `toISOString()`; it throws on an invalid date. -/
def toISOString (d : JSDate) : Except JsError String :=
  match d with
  | none => .error (.RangeError "Invalid time value")
  | some t =>
    .ok (String.mk (isoDateOfTime t ++ ('T' :: (isoTimeText t ++ ['Z']))))

/-- The expression `s.split("T")[0]`: the text before the first `T`. -/
def splitT0 (s : String) : String := String.mk (s.data.takeWhile fun c => c ≠ 'T')

/-! ## `getSeason` and `findMatchingEventDate` -/

/-- The text of a year inside a template literal. -/
def yearText (y : Option Int) : String :=
  match y with
  | some y => toString y
  | none => "NaN"

def getSeason (h : Host) (dateStr : String) : String :=
  let date := newDate h dateStr
  let month := (getMonth h date).map fun m => m + 1
  let year := getFullYear h date
  match month with
  | some month =>
    if month ≥ 3 ∧ month ≤ 6 then "Spring " ++ yearText year
    else if month ≥ 9 ∧ month ≤ 10 then "Fall " ++ yearText year
    else "Unknown " ++ yearText year
  | none => "Unknown " ++ yearText year

/-- The body of the loop `for (let offset = -2; offset <= 2; offset++)`, run over
the offsets still to be tried. -/
def probeOffsets (h : Host) (attDate : JSDate) (eventDates : List String) :
    List Int → Except JsError (Option String)
  | [] => .ok none
  | offset :: rest =>
    if offset = 0 then probeOffsets h attDate eventDates rest
    else
      let testDate : JSDate := attDate
      let testDate := setDate h testDate ((getDate h testDate).map fun d => d + offset)
      match toISOString testDate with
      | .error e => .error e
      | .ok iso =>
        let testDateStr := splitT0 iso
        if testDateStr ∈ eventDates then .ok (some testDateStr)
        else probeOffsets h attDate eventDates rest

def findMatchingEventDate (h : Host) (attendanceDate : String) (eventDates : List String) :
    Except JsError (Option String) :=
  let attDate := newDate h attendanceDate
  if attendanceDate ∈ eventDates then .ok (some attendanceDate)
  else probeOffsets h attDate eventDates [-2, -1, 0, 1, 2]

/-! ## Plain objects used as dictionaries -/

/-- An object with string keys, its own properties in insertion order. -/
abbrev Dict (V : Type) := List (String × V)

def dictGet {V : Type} : Dict V → String → Option V
  | [], _ => none
  | (k, v) :: rest, key => if k = key then some v else dictGet rest key

def dictSet {V : Type} : Dict V → String → V → Dict V
  | [], key, val => [(key, val)]
  | (k, v) :: rest, key, val =>
    if k = key then (k, val) :: rest else (k, v) :: dictSet rest key val

def dictKeys {V : Type} (o : Dict V) : List String := o.map Prod.fst

/-- Reads decimal digits, most significant first, onto `acc`; `none` when a
character is not a digit. -/
def decimalValue (acc : Nat) : List Char → Option Nat
  | [] => some acc
  | c :: cs =>
    if 48 ≤ c.toNat ∧ c.toNat ≤ 57 then decimalValue (10 * acc + (c.toNat - 48)) cs
    else none

/-- The array index a property key stands for, if it is one: the key is the
canonical decimal text (no leading zero, no sign) of an integer below
2^32 - 1. -/
def arrayIndex (key : String) : Option Nat :=
  match key.data with
  | [] => none
  | c :: cs =>
    if c = '0' ∧ cs ≠ [] then none
    else
      match decimalValue 0 (c :: cs) with
      | some n => if n < 4294967295 then some n else none
      | none => none

/-- The order in which an index key comes before another. -/
def indexBefore {V : Type} (a b : String × V) : Prop :=
  (arrayIndex a.1).getD 0 ≤ (arrayIndex b.1).getD 0

instance {V : Type} (a b : String × V) : Decidable (indexBefore a b) := by
  unfold indexBefore; infer_instance

/-- The call `Object.entries(o)`: the properties whose key is an array index
first, in ascending order of the index, then the other properties in the order
in which they were created. -/
def objectEntries {V : Type} (o : Dict V) : List (String × V) :=
  (o.filter fun e => (arrayIndex e.1).isSome).insertionSort indexBefore
    ++ o.filter fun e => !(arrayIndex e.1).isSome

/-- The call `Object.keys(o)`, in the order of `Object.entries(o)`. -/
def objectKeys {V : Type} (o : Dict V) : List String := (objectEntries o).map Prod.fst

/-! ## Rows, locations and records -/

def RIDERS_PER_VEHICLE : ℚ := 2

def RATE_LIMIT_DELAY : Nat := 100

structure TeamRow where
  team : String
  city : String
  state : String
  zip : String
  deriving DecidableEq

structure EventRow where
  event_id : Int
  event_date : String
  venue : String
  city : String
  state : String
  deriving DecidableEq

structure AttendanceRow where
  team : String
  race_date_iso : String
  riders : ℚ
  deriving DecidableEq

structure GeoLocation where
  lat : ℚ
  lng : ℚ
  formatted_address : String
  deriving DecidableEq

structure TeamLocation where
  lat : ℚ
  lng : ℚ
  formatted_address : String
  city : String
  state : String
  zip : String
  deriving DecidableEq

structure EventLocation where
  lat : ℚ
  lng : ℚ
  formatted_address : String
  venue : String
  city : String
  state : String
  event_id : Int
  deriving DecidableEq

/-- An entry of `uniqueLocations`: the first event location of the group, spread,
plus the event dates of the group. -/
structure UniqueLocation where
  loc : EventLocation
  dates : List String
  deriving DecidableEq

structure DistanceData where
  distance_miles : ℚ
  duration_minutes : ℚ
  distance_text : String
  duration_text : String
  deriving DecidableEq

structure DistanceInfo where
  one_way_miles : ℚ
  one_way_minutes : ℚ
  round_trip_miles : ℚ
  round_trip_minutes : ℚ
  distance_text : String
  duration_text : String
  deriving DecidableEq

structure TravelRecord where
  team : String
  date : String
  event_date : String
  riders : ℚ
  vehicles : Int
  one_way_miles : ℚ
  round_trip_miles : ℚ
  total_miles_traveled : ℚ
  one_way_minutes : ℚ
  round_trip_minutes : ℚ
  total_minutes_traveled : ℚ
  venue : Option String
  city : Option String
  season : String
  deriving DecidableEq

structure IndependentRecord where
  date : String
  event_date : String
  riders : ℚ
  venue : Option String
  city : Option String
  season : String
  deriving DecidableEq

structure UnmatchedRecord where
  team : String
  date : String
  riders : ℚ
  deriving DecidableEq

/-! ## The two web services -/

structure GeocodeResult where
  lat : ℚ
  lng : ℚ
  formatted_address : String

/-- What the geocoding request comes back with: the request failed (an exception),
or a body with a status and a list of results. -/
inductive GeocodeResponse where
  | failed (message : String)
  | received (status : String) (results : List GeocodeResult)

/-- The element `rows[0].elements[0]` of a distance matrix body. -/
structure MatrixElement where
  status : String
  distance_value : ℚ
  distance_text : String
  duration_value : ℚ
  duration_text : String

/-- What the distance matrix request comes back with; `element` is `none` when
the body has no `rows[0].elements[0]`. -/
inductive MatrixResponse where
  | failed (message : String)
  | received (status : String) (element : Option MatrixElement)

/-- The services as seen by the script: the answer to a request may depend on
how many requests were made before it. -/
structure Services where
  geocode : Nat → String → GeocodeResponse
  distanceMatrix : Nat → ℚ × ℚ → ℚ × ℚ → MatrixResponse

/-- The function `geocodeAddress`, as the `n`-th request of the run. -/
def geocodeAddress (sv : Services) (n : Nat) (address : String) : Option GeoLocation :=
  match sv.geocode n address with
  | .received status (result :: _) =>
    if status = "OK" then
      some { lat := result.lat, lng := result.lng,
             formatted_address := result.formatted_address }
    else none
  | .received _ [] => none
  | .failed _ => none

/-- The function `getDrivingDistance`, as the `n`-th request of the run. -/
def getDrivingDistance (sv : Services) (n : Nat) (origin destination : ℚ × ℚ) :
    Option DistanceData :=
  match sv.distanceMatrix n origin destination with
  | .received status (some element) =>
    if status = "OK" ∧ element.status = "OK" then
      some { distance_miles := element.distance_value * (621371 / 1000000000),
             duration_minutes := element.duration_value / 60,
             distance_text := element.distance_text,
             duration_text := element.duration_text }
    else none
  | .received _ none => none
  | .failed _ => none

/-! ## Steps 1 and 2: geocoding teams and events -/

/-- The loop of step 1 over the teams still to be handled; `n` counts the
requests made so far. -/
def geocodeTeams (sv : Services) :
    List TeamRow → Nat → Dict TeamLocation → Dict TeamLocation × Nat
  | [], n, teamLocations => (teamLocations, n)
  | team :: rest, n, teamLocations =>
    if team.team = "Independent" then geocodeTeams sv rest n teamLocations
    else
      let address := team.city ++ ", " ++ team.state ++ " " ++ team.zip
      match geocodeAddress sv n address with
      | some location =>
        geocodeTeams sv rest (n + 1)
          (dictSet teamLocations team.team
            { lat := location.lat, lng := location.lng,
              formatted_address := location.formatted_address,
              city := team.city, state := team.state, zip := team.zip })
      | none => geocodeTeams sv rest (n + 1) teamLocations

/-- The venue lookup of step 2 with its fall-back to the city; returns the
location and the number of requests made so far. -/
def geocodeVenue (sv : Services) (n : Nat) (event : EventRow) : Option GeoLocation × Nat :=
  let venueAddress := event.venue ++ ", " ++ event.city ++ ", " ++ event.state
  let cityAddress := event.city ++ ", " ++ event.state
  match geocodeAddress sv n venueAddress with
  | some location => (some location, n + 1)
  | none => (geocodeAddress sv (n + 1) cityAddress, n + 2)

/-- The loop of step 2 over the events still to be handled. -/
def geocodeEvents (sv : Services) :
    List EventRow → Nat → Dict EventLocation → Dict EventLocation × Nat
  | [], n, eventLocations => (eventLocations, n)
  | event :: rest, n, eventLocations =>
    match geocodeVenue sv n event with
    | (some location, n1) =>
      geocodeEvents sv rest n1
        (dictSet eventLocations event.event_date
          { lat := location.lat, lng := location.lng,
            formatted_address := location.formatted_address,
            venue := event.venue, city := event.city, state := event.state,
            event_id := event.event_id })
    | (none, n1) => geocodeEvents sv rest n1 eventLocations

/-! ## Step 3: unique venue locations and distances -/

def locationKey (eventLoc : EventLocation) : String :=
  eventLoc.city ++ "_" ++ eventLoc.state

/-- The body of the loop that builds `uniqueLocations`. -/
def addUniqueLocation (uniqueLocations : Dict UniqueLocation)
    (entry : String × EventLocation) : Dict UniqueLocation :=
  match dictGet uniqueLocations (locationKey entry.2) with
  | none =>
    dictSet uniqueLocations (locationKey entry.2) { loc := entry.2, dates := [entry.1] }
  | some group =>
    dictSet uniqueLocations (locationKey entry.2)
      { group with dates := group.dates ++ [entry.1] }

/-- The loop `for (const [eventDate, eventLoc] of Object.entries(eventLocations))`. -/
def buildUniqueLocations (eventLocations : Dict EventLocation) : Dict UniqueLocation :=
  (objectEntries eventLocations).foldl addUniqueLocation []

def makeDistanceInfo (distanceData : DistanceData) : DistanceInfo :=
  { one_way_miles := distanceData.distance_miles,
    one_way_minutes := distanceData.duration_minutes,
    round_trip_miles := distanceData.distance_miles * 2,
    round_trip_minutes := distanceData.duration_minutes * 2,
    distance_text := distanceData.distance_text,
    duration_text := distanceData.duration_text }

/-- The loop `for (const eventDate of venueLoc.dates)`. -/
def fanOut (row : Dict DistanceInfo) (distanceInfo : DistanceInfo) (dates : List String) :
    Dict DistanceInfo :=
  dates.foldl (fun r eventDate => dictSet r eventDate distanceInfo) row

/-- The inner loop of step 3 for one team, over the entries of `uniqueLocations`
still to be handled. -/
def teamDistances (sv : Services) (teamLoc : TeamLocation) :
    List (String × UniqueLocation) → Nat → Dict DistanceInfo → Dict DistanceInfo × Nat
  | [], n, row => (row, n)
  | (_, venueLoc) :: rest, n, row =>
    match getDrivingDistance sv n (teamLoc.lat, teamLoc.lng)
        (venueLoc.loc.lat, venueLoc.loc.lng) with
    | some distanceData =>
      teamDistances sv teamLoc rest (n + 1)
        (fanOut row (makeDistanceInfo distanceData) venueLoc.dates)
    | none => teamDistances sv teamLoc rest (n + 1) row

/-- The outer loop of step 3 over the entries of `teamLocations` still to be
handled; for each it runs the inner loop over `Object.entries(uniqueLocations)`. -/
def allDistances (sv : Services) (uniqueLocations : Dict UniqueLocation) :
    List (String × TeamLocation) → Nat → Dict (Dict DistanceInfo) →
      Dict (Dict DistanceInfo) × Nat
  | [], n, distances => (distances, n)
  | (teamName, teamLoc) :: rest, n, distances =>
    let row := teamDistances sv teamLoc (objectEntries uniqueLocations) n []
    allDistances sv uniqueLocations rest row.2 (dictSet distances teamName row.1)

/-- The loop `for (const [teamName, teamLoc] of Object.entries(teamLocations))`
of step 3, started after `n` requests. -/
def calculateDistances (sv : Services) (teamLocations : Dict TeamLocation)
    (uniqueLocations : Dict UniqueLocation) (n : Nat) : Dict (Dict DistanceInfo) × Nat :=
  allDistances sv uniqueLocations (objectEntries teamLocations) n []

/-! ## Step 4: the attendance join -/

structure JoinState where
  travelData : List TravelRecord
  independentData : List IndependentRecord
  unmatchedAttendance : List UnmatchedRecord
  deriving DecidableEq

/-- The value of a match in a condition: `null` and the empty string are falsy. -/
def truthyDate (matched : Option String) : Option String :=
  match matched with
  | some s => if s = "" then none else some s
  | none => none

/-- The expression `Math.ceil(x)` on a finite number. -/
def Math_ceil (x : ℚ) : Int := Int.ceil x

/-- The body of the loop `for (const record of attendance)`. The list
`Object.keys(eventLocations)` is only searched with `includes`, so the keys are
passed in insertion order. -/
def joinRecord (h : Host) (eventLocations : Dict EventLocation)
    (distances : Dict (Dict DistanceInfo)) (st : JoinState) (record : AttendanceRow) :
    Except JsError JoinState :=
  let teamName := record.team
  let attendanceDate := record.race_date_iso
  let riders := record.riders
  if teamName = "Independent" then
    match findMatchingEventDate h attendanceDate (dictKeys eventLocations) with
    | .error e => .error e
    | .ok matched =>
      match truthyDate matched with
      | some matchedEventDate =>
        .ok { st with
          independentData := st.independentData ++
            [{ date := attendanceDate,
               event_date := matchedEventDate,
               riders := riders,
               venue := (dictGet eventLocations matchedEventDate).map fun l => l.venue,
               city := (dictGet eventLocations matchedEventDate).map fun l => l.city,
               season := getSeason h attendanceDate }] }
      | none => .ok st
  else
    match findMatchingEventDate h attendanceDate (dictKeys eventLocations) with
    | .error e => .error e
    | .ok matched =>
      match (truthyDate matched).bind fun matchedEventDate =>
          ((dictGet distances teamName).bind fun row => dictGet row matchedEventDate).map
            fun dist => (matchedEventDate, dist) with
      | some (matchedEventDate, dist) =>
        let vehicles := Math_ceil (riders / RIDERS_PER_VEHICLE)
        .ok { st with
          travelData := st.travelData ++
            [{ team := teamName,
               date := attendanceDate,
               event_date := matchedEventDate,
               riders := riders,
               vehicles := vehicles,
               one_way_miles := dist.one_way_miles,
               round_trip_miles := dist.round_trip_miles,
               total_miles_traveled := dist.round_trip_miles * vehicles,
               one_way_minutes := dist.one_way_minutes,
               round_trip_minutes := dist.round_trip_minutes,
               total_minutes_traveled := dist.round_trip_minutes * vehicles,
               venue := (dictGet eventLocations matchedEventDate).map fun l => l.venue,
               city := (dictGet eventLocations matchedEventDate).map fun l => l.city,
               season := getSeason h attendanceDate }] }
      | none =>
        .ok { st with
          unmatchedAttendance := st.unmatchedAttendance ++
            [{ team := teamName, date := attendanceDate, riders := riders }] }

/-- The loop of step 4 over the attendance records still to be handled; an
exception thrown in the body ends the run. -/
def joinAttendance (h : Host) (eventLocations : Dict EventLocation)
    (distances : Dict (Dict DistanceInfo)) :
    JoinState → List AttendanceRow → Except JsError JoinState
  | st, [] => .ok st
  | st, record :: rest =>
    match joinRecord h eventLocations distances st record with
    | .error e => .error e
    | .ok st1 => joinAttendance h eventLocations distances st1 rest

/-! ## The whole run -/

/-- The document written to `wscl_distance_data.json` (without its metadata
block), together with the list of unmatched records printed to the console. -/
structure Report where
  team_locations : Dict TeamLocation
  event_locations : Dict EventLocation
  distances : Dict (Dict DistanceInfo)
  travel_data : List TravelRecord
  independent_data : List IndependentRecord
  unmatchedAttendance : List UnmatchedRecord

/-- The function `calculateAllDistances` on the rows read from the three CSV
files. -/
def calculateAllDistances (h : Host) (sv : Services) (teams : List TeamRow)
    (events : List EventRow) (attendance : List AttendanceRow) : Except JsError Report :=
  let step1 := geocodeTeams sv teams 0 []
  let teamLocations := step1.1
  let step2 := geocodeEvents sv events step1.2 []
  let eventLocations := step2.1
  let uniqueLocations := buildUniqueLocations eventLocations
  let distances := (calculateDistances sv teamLocations uniqueLocations step2.2).1
  match joinAttendance h eventLocations distances
      { travelData := [], independentData := [], unmatchedAttendance := [] } attendance with
  | .error e => .error e
  | .ok st =>
    .ok { team_locations := teamLocations,
          event_locations := eventLocations,
          distances := distances,
          travel_data := st.travelData,
          independent_data := st.independentData,
          unmatchedAttendance := st.unmatchedAttendance }

deriving instance DecidableEq for Except

/-- The team locations a run builds in step 1. -/
def runTeamLocations (sv : Services) (teams : List TeamRow) : Dict TeamLocation :=
  (geocodeTeams sv teams 0 []).1

/-- The event locations a run builds in step 2. -/
def runEventLocations (sv : Services) (teams : List TeamRow) (events : List EventRow) :
    Dict EventLocation :=
  (geocodeEvents sv events (geocodeTeams sv teams 0 []).2 []).1

/-- The number of requests a run has made when step 3 begins. -/
def runRequestsBeforeStep3 (sv : Services) (teams : List TeamRow) (events : List EventRow) :
    Nat :=
  (geocodeEvents sv events (geocodeTeams sv teams 0 []).2 []).2

/-- The distance mapping a run builds in step 3. -/
def runDistances (sv : Services) (teams : List TeamRow) (events : List EventRow) :
    Dict (Dict DistanceInfo) :=
  (calculateDistances sv (runTeamLocations sv teams)
    (buildUniqueLocations (runEventLocations sv teams events))
    (runRequestsBeforeStep3 sv teams events)).1

/-- The entry of a distance mapping for a team and an event date, if any. -/
def distanceEntry (distances : Dict (Dict DistanceInfo)) (team eventDate : String) :
    Option DistanceInfo :=
  (dictGet distances team).bind fun row => dictGet row eventDate

/-- What the join of step 4 establishes of a travel record it emits, relative to
the event locations and the distance mapping it joins against. -/
def TravelRecord.FromJoin (eventLocations : Dict EventLocation)
    (distances : Dict (Dict DistanceInfo)) (r : TravelRecord) : Prop :=
  r.team ≠ "Independent"
  ∧ r.event_date ∈ dictKeys eventLocations
  ∧ r.vehicles = Math_ceil (r.riders / RIDERS_PER_VEHICLE)
  ∧ ∃ dist, distanceEntry distances r.team r.event_date = some dist
      ∧ r.one_way_miles = dist.one_way_miles
      ∧ r.round_trip_miles = dist.round_trip_miles
      ∧ r.one_way_minutes = dist.one_way_minutes
      ∧ r.round_trip_minutes = dist.round_trip_minutes
      ∧ r.total_miles_traveled = dist.round_trip_miles * r.vehicles
      ∧ r.total_minutes_traveled = dist.round_trip_minutes * r.vehicles

/-! ## The end-to-end scenario of the specification -/

/-- Services that geocode every address and answer every distance request with
450 km and 15000 s. -/
def exampleServices : Services :=
  { geocode := fun n _ =>
      .received "OK" [{ lat := 47, lng := n, formatted_address := "found" }]
    distanceMatrix := fun _ _ _ =>
      .received "OK" (some { status := "OK", distance_value := 450000,
                             distance_text := "280 mi", duration_value := 15000,
                             duration_text := "4 hours 10 mins" }) }

def exampleTeams : List TeamRow :=
  [{ team := "Seattle", city := "Seattle", state := "WA", zip := "98101" }]

def exampleEvents : List EventRow :=
  [{ event_id := 1, event_date := "2024-04-06", venue := "X Track", city := "Spokane",
     state := "WA" }]

def exampleAttendance : List AttendanceRow :=
  [{ team := "Seattle", race_date_iso := "2024-04-06", riders := 5 }]

def exampleEventLocations : Dict EventLocation :=
  [("2024-04-06",
    { lat := 47, lng := ((1 : Nat) : ℚ), formatted_address := "found", venue := "X Track",
      city := "Spokane", state := "WA", event_id := 1 })]

def exampleDistanceInfo : DistanceInfo :=
  { one_way_miles := 450000 * (621371 / 1000000000),
    one_way_minutes := 15000 / 60,
    round_trip_miles := 450000 * (621371 / 1000000000) * 2,
    round_trip_minutes := 15000 / 60 * 2,
    distance_text := "280 mi",
    duration_text := "4 hours 10 mins" }

def exampleDistances : Dict (Dict DistanceInfo) :=
  [("Seattle", [("2024-04-06", exampleDistanceInfo)])]

/-- The travel record of the scenario: five riders, three vehicles. -/
def exampleTravelRecord : TravelRecord :=
  { team := "Seattle",
    date := "2024-04-06",
    event_date := "2024-04-06",
    riders := 5,
    vehicles := Math_ceil (5 / RIDERS_PER_VEHICLE),
    one_way_miles := 450000 * (621371 / 1000000000),
    round_trip_miles := 450000 * (621371 / 1000000000) * 2,
    total_miles_traveled :=
      450000 * (621371 / 1000000000) * 2 * (Math_ceil (5 / RIDERS_PER_VEHICLE) : ℤ),
    one_way_minutes := 15000 / 60,
    round_trip_minutes := 15000 / 60 * 2,
    total_minutes_traveled := 15000 / 60 * 2 * (Math_ceil (5 / RIDERS_PER_VEHICLE) : ℤ),
    venue := some "X Track",
    city := some "Spokane",
    season := "Spring 2024" }

def emptyJoinState : JoinState :=
  { travelData := [], independentData := [], unmatchedAttendance := [] }

/-- Two events at different venues of the same city. -/
def sharedCityEvents : List EventRow :=
  [{ event_id := 1, event_date := "2024-04-06", venue := "X Track", city := "Spokane",
     state := "WA" },
   { event_id := 2, event_date := "2024-04-13", venue := "Y Park", city := "Spokane",
     state := "WA" }]

/-- The team location of the scenario: the answer to the first request. -/
def exampleTeamLocation : TeamLocation :=
  { lat := 47, lng := ((0 : Nat) : ℚ), formatted_address := "found", city := "Seattle",
    state := "WA", zip := "98101" }

def sharedCityLocation1 : EventLocation :=
  { lat := 47, lng := ((1 : Nat) : ℚ), formatted_address := "found", venue := "X Track",
    city := "Spokane", state := "WA", event_id := 1 }

def sharedCityLocation2 : EventLocation :=
  { lat := 47, lng := ((2 : Nat) : ℚ), formatted_address := "found", venue := "Y Park",
    city := "Spokane", state := "WA", event_id := 2 }

/-- Three events, the third on the date of the first and in another city. -/
def repeatedDateEvents : List EventRow :=
  [{ event_id := 1, event_date := "2024-04-06", venue := "X Track", city := "Spokane",
     state := "WA" },
   { event_id := 2, event_date := "2024-04-13", venue := "Y Park", city := "Spokane",
     state := "WA" },
   { event_id := 3, event_date := "2024-04-06", venue := "Z Field", city := "Yakima",
     state := "WA" }]

/-- Services that geocode every address and answer the distance request numbered
4 with 230 km and 8400 s, every other one with 450 km and 15000 s. -/
def repeatedDateServices : Services :=
  { geocode := fun n _ =>
      .received "OK" [{ lat := 47, lng := n, formatted_address := "found" }]
    distanceMatrix := fun n _ _ =>
      if n = 4 then
        .received "OK" (some { status := "OK", distance_value := 230000,
                               distance_text := "143 mi", duration_value := 8400,
                               duration_text := "2 hours 20 mins" })
      else
        .received "OK" (some { status := "OK", distance_value := 450000,
                               distance_text := "280 mi", duration_value := 15000,
                               duration_text := "4 hours 10 mins" }) }

def yakimaDistanceInfo : DistanceInfo :=
  { one_way_miles := 230000 * (621371 / 1000000000),
    one_way_minutes := 8400 / 60,
    round_trip_miles := 230000 * (621371 / 1000000000) * 2,
    round_trip_minutes := 8400 / 60 * 2,
    distance_text := "143 mi",
    duration_text := "2 hours 20 mins" }

/-- A roster with a team whose name is a number. -/
def numberedTeams : List TeamRow :=
  [{ team := "Seattle", city := "Seattle", state := "WA", zip := "98101" },
   { team := "42", city := "Tacoma", state := "WA", zip := "98402" }]

/-- Two events in different cities of different states whose city and state,
joined by an underscore, give the same text. -/
def collidingEvents : List EventRow :=
  [{ event_id := 1, event_date := "2024-04-06", venue := "X Track", city := "Walla_Walla",
     state := "WA" },
   { event_id := 2, event_date := "2024-04-13", venue := "Y Park", city := "Walla",
     state := "Walla_WA" }]

/-! ## Groups of event locations -/

/-- Of the given entries of the event locations, those whose location key is
`K`, in order. -/
def groupEntries (entries : List (String × EventLocation)) (K : String) :
    List (String × EventLocation) :=
  entries.filter fun e => decide (locationKey e.2 = K)

/-- The group made of the given entries: the location of the first one and the
event dates of all of them. -/
def groupOf : List (String × EventLocation) → Option UniqueLocation
  | [] => none
  | e :: es => some { loc := e.2, dates := (e :: es).map Prod.fst }

/-- Two event dates are recorded in the same group of `uniqueLocations`. -/
def SameGroup (uniqueLocations : Dict UniqueLocation) (d1 d2 : String) : Prop :=
  ∃ K group, dictGet uniqueLocations K = some group ∧ d1 ∈ group.dates ∧ d2 ∈ group.dates

/-! ## The calendar, as the specification speaks of it -/

/-- Number of days of month `m` (1 = January) of year `y`. -/
def daysInMonth (y m : Int) : Int :=
  if m = 2 then (if y % 4 = 0 ∧ (y % 100 ≠ 0 ∨ y % 400 = 0) then 29 else 28)
  else if m = 4 ∨ m = 6 ∨ m = 9 ∨ m = 11 then 30
  else 31

/-- A calendar date: year, month (1..12), day of the month. -/
structure CalDate where
  year : Int
  month : Int
  day : Int
  deriving DecidableEq, Repr

def CalDate.Valid (c : CalDate) : Prop :=
  1 ≤ c.month ∧ c.month ≤ 12 ∧ 1 ≤ c.day ∧ c.day ≤ daysInMonth c.year c.month

instance (c : CalDate) : Decidable c.Valid := by
  unfold CalDate.Valid; infer_instance

/-- The day after `c`. -/
def CalDate.next (c : CalDate) : CalDate :=
  if c.day < daysInMonth c.year c.month then { c with day := c.day + 1 }
  else if c.month < 12 then { year := c.year, month := c.month + 1, day := 1 }
  else { year := c.year + 1, month := 1, day := 1 }

/-- The day before `c`. -/
def CalDate.prev (c : CalDate) : CalDate :=
  if 1 < c.day then { c with day := c.day - 1 }
  else if 1 < c.month then
    { year := c.year, month := c.month - 1, day := daysInMonth c.year (c.month - 1) }
  else { year := c.year - 1, month := 12, day := 31 }

/-- The day number (days since the epoch) of a calendar date, as `MakeDay`
computes it. -/
def CalDate.dayNumber (c : CalDate) : Int := MakeDay c.year (c.month - 1) c.day

/-- The text `YYYY-MM-DD` of a calendar date. -/
def CalDate.iso (c : CalDate) : String := String.mk (isoDateText c.year c.month c.day)

/-- The calendar date written in a string of the form `YYYY-MM-DD`, if it is one
and names a day that exists. -/
def parseCalDate (s : String) : Option CalDate :=
  match isoDateFields s with
  | some (y, m, d) =>
    if CalDate.Valid { year := y, month := m, day := d } then
      some { year := y, month := m, day := d }
    else none
  | none => none

/-- The text tried at offset `k`: the UTC date of the instant reached by moving
the local time of `t` by `k` days. -/
def probeText (h : Host) (t k : Int) : String :=
  String.mk (isoDateOfTime (UTC h (LocalTime h t + k * msPerDay)))

/-- The first of the candidates that is a known event date. -/
def firstKnown (eventDates : List String) (candidates : List String) : Option String :=
  candidates.find? fun c => decide (c ∈ eventDates)

/-- The dates the specification has the matcher try, in its order: the date
itself, then two days and one day before, then one day and two days after. -/
def matchCandidates (s : String) (c : CalDate) : List String :=
  [s, c.prev.prev.iso, c.prev.iso, c.next.iso, c.next.next.iso]

/-- The season label the specification gives to month `m` of year `y`. -/
def seasonLabel (y m : Int) : String :=
  if 3 ≤ m ∧ m ≤ 6 then "Spring " ++ toString y
  else if 9 ≤ m ∧ m ≤ 10 then "Fall " ++ toString y
  else "Unknown " ++ toString y

/-- A host whose offsets from UTC stay within a day. -/
def Host.Sane (h : Host) : Prop :=
  ∀ t, -msPerDay ≤ h.utcOffset t ∧ h.utcOffset t ≤ msPerDay
    ∧ -msPerDay ≤ h.localOffset t ∧ h.localOffset t ≤ msPerDay

/-! ## The calendar functions -/

theorem DayFromYear_succ (y : Int) : DayFromYear (y + 1) = DayFromYear y + DaysInYear y := by
  unfold DayFromYear DaysInYear
  split_ifs <;> omega

theorem DayFromYear_mono {a b : Int} (hab : a ≤ b) : DayFromYear a ≤ DayFromYear b := by
  unfold DayFromYear; omega

theorem YearFromDay_spec (n : Int) :
    DayFromYear (YearFromDay n) ≤ n ∧ n < DayFromYear (YearFromDay n + 1) := by
  unfold YearFromDay
  simp only
  split_ifs with h1 h2
  · rw [sub_add_cancel]; unfold DayFromYear at *; constructor <;> omega
  · unfold DayFromYear at *; constructor <;> omega
  · unfold DayFromYear at *; constructor <;> omega

theorem YearFromDay_eq {n y : Int} (h1 : DayFromYear y ≤ n) (h2 : n < DayFromYear (y + 1)) :
    YearFromDay n = y := by
  obtain ⟨s1, s2⟩ := YearFromDay_spec n
  by_contra hne
  rcases lt_or_gt_of_ne hne with hlt | hgt
  · have := DayFromYear_mono (show YearFromDay n + 1 ≤ y by omega)
    omega
  · have := DayFromYear_mono (show y + 1 ≤ YearFromDay n by omega)
    omega

theorem DayWithinYear_range (t : Int) :
    0 ≤ DayWithinYear t ∧ DayWithinYear t < DaysInYear (YearFromTime t) := by
  obtain ⟨s1, s2⟩ := YearFromDay_spec (Day t)
  rw [DayFromYear_succ] at s2
  unfold DayWithinYear YearFromTime
  constructor <;> omega

theorem monthOfYearDay_range (d leap : Int) :
    0 ≤ monthOfYearDay d leap ∧ monthOfYearDay d leap ≤ 11 := by
  unfold monthOfYearDay
  by_cases h1 : d < 31
  · rw [if_pos h1]; omega
  rw [if_neg h1]
  by_cases h2 : d < 59 + leap
  · rw [if_pos h2]; omega
  rw [if_neg h2]
  by_cases h3 : d < 90 + leap
  · rw [if_pos h3]; omega
  rw [if_neg h3]
  by_cases h4 : d < 120 + leap
  · rw [if_pos h4]; omega
  rw [if_neg h4]
  by_cases h5 : d < 151 + leap
  · rw [if_pos h5]; omega
  rw [if_neg h5]
  by_cases h6 : d < 181 + leap
  · rw [if_pos h6]; omega
  rw [if_neg h6]
  by_cases h7 : d < 212 + leap
  · rw [if_pos h7]; omega
  rw [if_neg h7]
  by_cases h8 : d < 243 + leap
  · rw [if_pos h8]; omega
  rw [if_neg h8]
  by_cases h9 : d < 273 + leap
  · rw [if_pos h9]; omega
  rw [if_neg h9]
  by_cases h10 : d < 304 + leap
  · rw [if_pos h10]; omega
  rw [if_neg h10]
  by_cases h11 : d < 334 + leap
  · rw [if_pos h11]; omega
  rw [if_neg h11]
  omega

theorem MonthFromTime_range (t : Int) : 0 ≤ MonthFromTime t ∧ MonthFromTime t ≤ 11 :=
  monthOfYearDay_range _ _

theorem MakeDay_of_fields (t dt : Int) :
    MakeDay (YearFromTime t) (MonthFromTime t) dt = Day t + (dt - DateFromTime t) := by
  obtain ⟨m0, m11⟩ := MonthFromTime_range t
  have hq : MonthFromTime t / 12 = 0 := by omega
  have hr : MonthFromTime t % 12 = MonthFromTime t := by omega
  unfold MakeDay
  simp only [hq, hr, add_zero]
  unfold DateFromTime DayWithinYear
  omega

theorem leap_cases (y : Int) :
    (InLeapYear y = 0 ∧ DaysInYear y = 365 ∧ daysInMonth y 2 = 28)
    ∨ (InLeapYear y = 1 ∧ DaysInYear y = 366 ∧ daysInMonth y 2 = 29) := by
  unfold InLeapYear DaysInYear daysInMonth
  by_cases h4 : y % 4 = 0 <;> by_cases h100 : y % 100 = 0 <;> by_cases h400 : y % 400 = 0 <;>
    simp [h4, h100, h400]

theorem daysInMonth_eq (y m : Int) :
    daysInMonth y m = if m = 2 then 28 + InLeapYear y
      else if m = 4 ∨ m = 6 ∨ m = 9 ∨ m = 11 then 30 else 31 := by
  by_cases h2 : m = 2
  · subst h2
    rcases leap_cases y with ⟨a, _, c⟩ | ⟨a, _, c⟩ <;> simp [a, c]
  · simp [daysInMonth, h2]

/-- In a valid date the day stays inside its month of the year-day table. -/
theorem month_window (c : CalDate) (hv : c.Valid) (leap : Int)
    (hl : leap = InLeapYear c.year) :
    0 ≤ monthStart (c.month - 1) leap + (c.day - 1)
    ∧ monthStart (c.month - 1) leap + (c.day - 1) < 365 + leap
    ∧ monthOfYearDay (monthStart (c.month - 1) leap + (c.day - 1)) leap = c.month - 1 := by
  obtain ⟨y, m, d⟩ := c
  obtain ⟨h1, h12, hd1, hd⟩ := hv
  simp only at h1 h12 hd1 hd hl ⊢
  have hleap := leap_cases y
  rw [daysInMonth_eq] at hd
  interval_cases m <;> norm_num [monthStart] at hd ⊢ <;>
    refine ⟨by omega, by omega, ?_⟩ <;> unfold monthOfYearDay <;>
    simp (disch := omega) only [if_pos, if_neg]

theorem dayNumber_eq (c : CalDate) (hv : c.Valid) :
    c.dayNumber = DayFromYear c.year + monthStart (c.month - 1) (InLeapYear c.year)
      + c.day - 1 := by
  obtain ⟨h1, h12, _, _⟩ := hv
  have hq : (c.month - 1) / 12 = 0 := by omega
  have hr : (c.month - 1) % 12 = c.month - 1 := by omega
  unfold CalDate.dayNumber MakeDay
  simp only [hq, hr, add_zero]

/-- Reading the fields of a time value back: a time on the day numbered by a
valid calendar date has that date as year, month and day of the month. -/
theorem fields_of_dayNumber (c : CalDate) (hv : c.Valid) (t : Int)
    (ht : Day t = c.dayNumber) :
    YearFromTime t = c.year ∧ MonthFromTime t = c.month - 1 ∧ DateFromTime t = c.day := by
  obtain ⟨w0, w1, w2⟩ := month_window c hv _ rfl
  have hn := dayNumber_eq c hv
  have hleap := leap_cases c.year
  have hy : YearFromTime t = c.year := by
    unfold YearFromTime
    apply YearFromDay_eq
    · omega
    · rw [DayFromYear_succ]; omega
  have hdw : DayWithinYear t
      = monthStart (c.month - 1) (InLeapYear c.year) + (c.day - 1) := by
    unfold DayWithinYear; rw [hy]; omega
  have hm : MonthFromTime t = c.month - 1 := by
    unfold MonthFromTime; rw [hy, hdw]; exact w2
  refine ⟨hy, hm, ?_⟩
  unfold DateFromTime
  rw [hm, hy, hdw]; omega

theorem next_valid (c : CalDate) (hv : c.Valid) : c.next.Valid := by
  obtain ⟨y, m, d⟩ := c
  obtain ⟨h1, h12, hd1, hd⟩ := hv
  simp only at h1 h12 hd1 hd
  unfold CalDate.next
  simp only
  by_cases hlt : d < daysInMonth y m
  · rw [if_pos hlt]
    exact ⟨h1, h12, by show 1 ≤ d + 1; omega, by show d + 1 ≤ daysInMonth y m; omega⟩
  · rw [if_neg hlt]
    by_cases hm : m < 12
    · rw [if_pos hm]
      refine ⟨by show 1 ≤ m + 1; omega, by show m + 1 ≤ 12; omega, le_refl _, ?_⟩
      show 1 ≤ daysInMonth y (m + 1)
      rw [daysInMonth_eq]
      have := leap_cases y
      split_ifs <;> omega
    · rw [if_neg hm]
      refine ⟨le_refl _, by show (1 : Int) ≤ 12; decide, le_refl _, ?_⟩
      show 1 ≤ daysInMonth (y + 1) 1
      rw [daysInMonth_eq]; norm_num

theorem dayNumber_next (c : CalDate) (hv : c.Valid) : c.next.dayNumber = c.dayNumber + 1 := by
  rw [dayNumber_eq _ (next_valid c hv), dayNumber_eq c hv]
  obtain ⟨y, m, d⟩ := c
  obtain ⟨h1, h12, hd1, hd⟩ := hv
  simp only at h1 h12 hd1 hd
  unfold CalDate.next
  simp only
  by_cases hlt : d < daysInMonth y m
  · rw [if_pos hlt]; simp only; omega
  · rw [if_neg hlt]
    have hd2 : d = daysInMonth y m := by omega
    rw [daysInMonth_eq] at hd2
    have hleap := leap_cases y
    by_cases hm : m < 12
    · rw [if_pos hm]; simp only
      interval_cases m <;> norm_num [monthStart] at hd2 ⊢ <;> omega
    · rw [if_neg hm]; simp only
      have hm12 : m = 12 := by omega
      subst hm12
      rw [DayFromYear_succ]
      norm_num [monthStart] at hd2 ⊢
      omega

theorem prev_valid (c : CalDate) (hv : c.Valid) : c.prev.Valid := by
  obtain ⟨y, m, d⟩ := c
  obtain ⟨h1, h12, hd1, hd⟩ := hv
  simp only at h1 h12 hd1 hd
  unfold CalDate.prev
  simp only
  by_cases hlt : 1 < d
  · rw [if_pos hlt]
    exact ⟨h1, h12, by show 1 ≤ d - 1; omega, by show d - 1 ≤ daysInMonth y m; omega⟩
  · rw [if_neg hlt]
    by_cases hm : 1 < m
    · rw [if_pos hm]
      refine ⟨by show 1 ≤ m - 1; omega, by show m - 1 ≤ 12; omega, ?_, le_refl _⟩
      show 1 ≤ daysInMonth y (m - 1)
      rw [daysInMonth_eq]
      have := leap_cases y
      split_ifs <;> omega
    · rw [if_neg hm]
      refine ⟨by show (1 : Int) ≤ 12; decide, le_refl _, by show (1 : Int) ≤ 31; decide, ?_⟩
      show (31 : Int) ≤ daysInMonth (y - 1) 12
      rw [daysInMonth_eq]; norm_num

theorem dayNumber_prev (c : CalDate) (hv : c.Valid) : c.prev.dayNumber = c.dayNumber - 1 := by
  rw [dayNumber_eq _ (prev_valid c hv), dayNumber_eq c hv]
  obtain ⟨y, m, d⟩ := c
  obtain ⟨h1, h12, hd1, hd⟩ := hv
  simp only at h1 h12 hd1 hd
  unfold CalDate.prev
  simp only
  by_cases hlt : 1 < d
  · rw [if_pos hlt]; simp only; omega
  · rw [if_neg hlt]
    have hd2 : d = 1 := by omega
    subst hd2
    have hleap := leap_cases y
    by_cases hm : 1 < m
    · rw [if_pos hm]; simp only
      rw [daysInMonth_eq]
      interval_cases m <;> norm_num [monthStart] <;> omega
    · rw [if_neg hm]; simp only
      have hm1 : m = 1 := by omega
      subst hm1
      have hs := DayFromYear_succ (y - 1)
      rw [sub_add_cancel] at hs
      have hleap1 := leap_cases (y - 1)
      norm_num [monthStart]
      omega

/-! ## The `Date` object -/

theorem Day_add_days (t k : Int) : Day (t + k * msPerDay) = Day t + k := by
  unfold Day msPerDay; omega

theorem TimeWithinDay_add_days (t k : Int) :
    TimeWithinDay (t + k * msPerDay) = TimeWithinDay t := by
  unfold TimeWithinDay msPerDay; omega

theorem MakeDate_Day (t k : Int) :
    MakeDate (Day t + k) (TimeWithinDay t) = t + k * msPerDay := by
  unfold MakeDate Day TimeWithinDay msPerDay; omega

theorem Day_of_midnight (n : Int) : Day (n * msPerDay) = n := by
  unfold Day msPerDay; omega

/-- Setting the day of the month to the current one plus `k` moves the local
time by `k` days, whatever the host. -/
theorem setDate_getDate (h : Host) (t k : Int) :
    setDate h (some t) ((getDate h (some t)).map fun d => d + k)
      = TimeClip (UTC h (LocalTime h t + k * msPerDay)) := by
  simp only [setDate, getDate, Option.map_some']
  rw [MakeDay_of_fields]
  have e : DateFromTime (LocalTime h t) + k - DateFromTime (LocalTime h t) = k := by omega
  rw [e, MakeDate_Day]

theorem digitChar_ne_T (n : Nat) : digitChar n ≠ 'T' := by
  unfold digitChar
  split <;> decide

theorem padDigits_no_T (w n : Nat) : ∀ c ∈ padDigits w n, c ≠ 'T' := by
  induction w generalizing n with
  | zero => intro c hc; simp [padDigits] at hc
  | succ w ih =>
    intro c hc
    simp only [padDigits, List.mem_append, List.mem_singleton] at hc
    rcases hc with hc | hc
    · exact ih _ c hc
    · rw [hc]; exact digitChar_ne_T n

theorem padDigits_length (w n : Nat) : (padDigits w n).length = w := by
  induction w generalizing n with
  | zero => rfl
  | succ w ih => simp [padDigits, ih]

theorem isoYear_no_T (y : Int) : ∀ c ∈ isoYear y, c ≠ 'T' := by
  intro c hc
  unfold isoYear at hc
  split_ifs at hc
  · exact padDigits_no_T _ _ c hc
  · rcases List.mem_cons.1 hc with hc | hc
    · rw [hc]; decide
    · exact padDigits_no_T _ _ c hc
  · rcases List.mem_cons.1 hc with hc | hc
    · rw [hc]; decide
    · exact padDigits_no_T _ _ c hc

theorem isoDateText_no_T (y m d : Int) : ∀ c ∈ isoDateText y m d, c ≠ 'T' := by
  intro c hc
  unfold isoDateText at hc
  rcases List.mem_append.1 hc with hc | hc
  · exact isoYear_no_T y c hc
  rcases List.mem_cons.1 hc with hc | hc
  · rw [hc]; decide
  rcases List.mem_append.1 hc with hc | hc
  · exact padDigits_no_T _ _ c hc
  rcases List.mem_cons.1 hc with hc | hc
  · rw [hc]; decide
  · exact padDigits_no_T _ _ c hc

theorem takeWhile_before_T (l r : List Char) (hl : ∀ c ∈ l, c ≠ 'T') :
    (l ++ 'T' :: r).takeWhile (fun c => c ≠ 'T') = l := by
  induction l with
  | nil => simp [List.takeWhile]
  | cons a l ih =>
    have ha : a ≠ 'T' := hl a (List.mem_cons_self _ _)
    have hl2 : ∀ c ∈ l, c ≠ 'T' := fun c hc => hl c (List.mem_cons_of_mem _ hc)
    show List.takeWhile (fun c => decide (c ≠ 'T')) (a :: (l ++ 'T' :: r)) = a :: l
    rw [List.takeWhile_cons_of_pos (by simpa using ha), ih hl2]

/-- The expression `d.toISOString().split("T")[0]` is the date part of the text. -/
theorem splitT0_toISOString (t : Int) :
    (toISOString (some t)).map splitT0 = .ok (String.mk (isoDateOfTime t)) := by
  unfold toISOString splitT0
  simp only [Except.map]
  rw [takeWhile_before_T (isoDateOfTime t) _ (isoDateText_no_T _ _ _)]

theorem isoDateText_ne_nil (y m d : Int) : isoDateText y m d ≠ [] := by
  unfold isoDateText
  simp

theorem digitVal_range (c : Char) (v : Int) (h : digitVal c = some v) : 0 ≤ v ∧ v ≤ 9 := by
  unfold digitVal at h
  split_ifs at h with hc
  injection h with h
  omega

theorem isoDateFields_range (s : String) (y m d : Int) (h : isoDateFields s = some (y, m, d)) :
    0 ≤ y ∧ y ≤ 9999 ∧ 0 ≤ m ∧ m ≤ 99 ∧ 0 ≤ d ∧ d ≤ 99 := by
  unfold isoDateFields at h
  split at h
  · split_ifs at h
    split at h
    · rename_i a b c d1 e f g i ha hb hc hd he hf hg hi
      have := digitVal_range _ _ ha
      have := digitVal_range _ _ hb
      have := digitVal_range _ _ hc
      have := digitVal_range _ _ hd
      have := digitVal_range _ _ he
      have := digitVal_range _ _ hf
      have := digitVal_range _ _ hg
      have := digitVal_range _ _ hi
      simp only [Option.some.injEq, Prod.mk.injEq] at h
      omega
    · exact absurd h (by simp)
  · exact absurd h (by simp)
theorem TimeClip_of_range (t : Int) (h1 : -8640000000000000 ≤ t) (h2 : t ≤ 8640000000000000) :
    TimeClip t = some t := by
  unfold TimeClip
  rw [if_neg]
  rw [not_lt, abs_le]
  exact ⟨h1, h2⟩

theorem DayFromYear_bounds (y : Int) (h0 : 0 ≤ y) (h1 : y ≤ 9999) :
    -719528 ≤ DayFromYear y ∧ DayFromYear y ≤ 2932896 := by
  unfold DayFromYear; omega

theorem InLeapYear_range (y : Int) : 0 ≤ InLeapYear y ∧ InLeapYear y ≤ 1 := by
  rcases leap_cases y with ⟨a, _, _⟩ | ⟨a, _, _⟩ <;> omega

theorem monthStart_bounds (m leap : Int) (h0 : 0 ≤ leap) (h1 : leap ≤ 1) :
    0 ≤ monthStart m leap ∧ monthStart m leap ≤ 335 := by
  unfold monthStart
  by_cases hm0 : m = 0
  · rw [if_pos hm0]; omega
  rw [if_neg hm0]
  by_cases hm1 : m = 1
  · rw [if_pos hm1]; omega
  rw [if_neg hm1]
  by_cases h2 : m = 2
  · rw [if_pos h2]; omega
  rw [if_neg h2]
  by_cases h3 : m = 3
  · rw [if_pos h3]; omega
  rw [if_neg h3]
  by_cases h4 : m = 4
  · rw [if_pos h4]; omega
  rw [if_neg h4]
  by_cases h5 : m = 5
  · rw [if_pos h5]; omega
  rw [if_neg h5]
  by_cases h6 : m = 6
  · rw [if_pos h6]; omega
  rw [if_neg h6]
  by_cases h7 : m = 7
  · rw [if_pos h7]; omega
  rw [if_neg h7]
  by_cases h8 : m = 8
  · rw [if_pos h8]; omega
  rw [if_neg h8]
  by_cases h9 : m = 9
  · rw [if_pos h9]; omega
  rw [if_neg h9]
  by_cases h10 : m = 10
  · rw [if_pos h10]; omega
  rw [if_neg h10]
  omega

/-- A date-only string that V8 accepts is read as UTC midnight of its day. -/
theorem newDate_of_fields (h : Host) (s : String) (y m d : Int)
    (hf : isoDateFields s = some (y, m, d)) (hm : 1 ≤ m ∧ m ≤ 12) (hd : 1 ≤ d ∧ d ≤ 31) :
    newDate h s = some (MakeDay y (m - 1) d * msPerDay)
    ∧ -100000000000000 ≤ MakeDay y (m - 1) d * msPerDay
    ∧ MakeDay y (m - 1) d * msPerDay ≤ 300000000000000 := by
  obtain ⟨y0, y1, _⟩ := isoDateFields_range s y m d hf
  have hq : (m - 1) / 12 = 0 := by omega
  have hb := DayFromYear_bounds y y0 y1
  have hl := InLeapYear_range y
  have hs := monthStart_bounds ((m - 1) % 12) (InLeapYear y) hl.1 hl.2
  have hrange : -100000000000000 ≤ MakeDay y (m - 1) d * msPerDay
      ∧ MakeDay y (m - 1) d * msPerDay ≤ 300000000000000 := by
    unfold MakeDay msPerDay
    simp only [hq, add_zero]
    omega
  refine ⟨?_, hrange⟩
  unfold newDate
  rw [hf]
  simp only
  rw [if_pos ⟨hm.1, hm.2, hd.1, hd.2⟩]
  unfold MakeDate
  rw [add_zero]
  exact TimeClip_of_range _ (by omega) (by omega)

theorem daysInMonth_le (y m : Int) : daysInMonth y m ≤ 31 := by
  rw [daysInMonth_eq]
  have := InLeapYear_range y
  split_ifs <;> omega

theorem newDate_of_parseCalDate (h : Host) (s : String) (c : CalDate)
    (hs : parseCalDate s = some c) :
    newDate h s = some (c.dayNumber * msPerDay) ∧ c.Valid
    ∧ -100000000000000 ≤ c.dayNumber * msPerDay
    ∧ c.dayNumber * msPerDay ≤ 300000000000000 := by
  unfold parseCalDate at hs
  split at hs
  · rename_i y m d hf
    split_ifs at hs with hv
    injection hs with hs
    subst hs
    obtain ⟨h1, h12, hd1, hd⟩ := hv
    simp only at h1 h12 hd1 hd
    have hle := daysInMonth_le y m
    obtain ⟨a, b⟩ := newDate_of_fields h s y m d hf ⟨h1, h12⟩ ⟨hd1, by omega⟩
    exact ⟨a, ⟨h1, h12, hd1, hd⟩, b⟩
  · exact absurd hs (by simp)

/-! ## `findMatchingEventDate` -/

theorem splitT0_of_toISOString (d : JSDate) (iso : String) (h : toISOString d = .ok iso) :
    ∃ t, d = some t ∧ splitT0 iso = String.mk (isoDateOfTime t) := by
  cases d with
  | none => simp [toISOString] at h
  | some t =>
    refine ⟨t, rfl, ?_⟩
    have e := splitT0_toISOString t
    rw [h] at e
    simpa [Except.map] using e

theorem isoDateOfTime_ne_empty (t : Int) : String.mk (isoDateOfTime t) ≠ "" := by
  intro e
  have e2 := congrArg String.data e
  exact isoDateText_ne_nil _ _ _ e2

theorem firstKnown_cons (E : List String) (c : String) (cs : List String) :
    firstKnown E (c :: cs) = if c ∈ E then some c else firstKnown E cs := by
  unfold firstKnown
  by_cases hc : c ∈ E <;> simp [List.find?, hc]

/-- Whatever the host, a date found by probing is a known event date, and it is
not the empty string. -/
theorem probeOffsets_sound (h : Host) (d : JSDate) (E : List String) (ks : List Int)
    (m : String) (hr : probeOffsets h d E ks = .ok (some m)) : m ∈ E ∧ m ≠ "" := by
  induction ks with
  | nil => simp [probeOffsets] at hr
  | cons k ks ih =>
    unfold probeOffsets at hr
    split_ifs at hr with hk
    · exact ih hr
    · simp only at hr
      split at hr
      · exact absurd hr (by simp)
      · rename_i iso hiso
        split_ifs at hr with hmem
        · simp only [Except.ok.injEq, Option.some.injEq] at hr
          subst hr
          obtain ⟨t, _, ht⟩ := splitT0_of_toISOString _ _ hiso
          exact ⟨hmem, by rw [ht]; exact isoDateOfTime_ne_empty t⟩
        · exact ih hr

theorem findMatchingEventDate_sound (h : Host) (s : String) (E : List String) (m : String)
    (hr : findMatchingEventDate h s E = .ok (some m)) : m ∈ E ∧ (s ≠ "" → m ≠ "") := by
  unfold findMatchingEventDate at hr
  simp only at hr
  split_ifs at hr with hmem
  · simp only [Except.ok.injEq, Option.some.injEq] at hr
    subst hr
    exact ⟨hmem, id⟩
  · have := probeOffsets_sound h _ E _ m hr
    exact ⟨this.1, fun _ => this.2⟩

/-- When none of the instants reached is out of range, probing answers the first
known date among the texts of the non-zero offsets. -/
theorem probeOffsets_eq (h : Host) (t0 : Int) (E : List String) (ks : List Int)
    (hr : ∀ k ∈ ks, -8640000000000000 ≤ UTC h (LocalTime h t0 + k * msPerDay)
      ∧ UTC h (LocalTime h t0 + k * msPerDay) ≤ 8640000000000000) :
    probeOffsets h (some t0) E ks
      = .ok (firstKnown E ((ks.filter fun k => k ≠ 0).map (probeText h t0))) := by
  induction ks with
  | nil => rfl
  | cons k ks ih =>
    have ih2 := ih fun k hk => hr k (List.mem_cons_of_mem _ hk)
    obtain ⟨r1, r2⟩ := hr k (List.mem_cons_self _ _)
    unfold probeOffsets
    by_cases hk : k = 0
    · rw [if_pos hk, ih2]
      simp [hk]
    · rw [if_neg hk]
      simp only
      rw [setDate_getDate, TimeClip_of_range _ r1 r2]
      have e := splitT0_toISOString (UTC h (LocalTime h t0 + k * msPerDay))
      cases hiso : toISOString (some (UTC h (LocalTime h t0 + k * msPerDay))) with
      | error err => rw [hiso] at e; simp [Except.map] at e
      | ok iso =>
        rw [hiso] at e
        simp only [Except.map, Except.ok.injEq] at e
        simp only
        rw [e, ih2]
        have hf : (List.filter (fun k => decide (k ≠ 0)) (k :: ks))
            = k :: List.filter (fun k => decide (k ≠ 0)) ks := by
          simp [List.filter, hk]
        rw [hf, List.map_cons, firstKnown_cons]
        show (if probeText h t0 k ∈ E then _ else _) = _
        split_ifs <;> rfl

theorem findMatchingEventDate_eq (h : Host) (s : String) (t0 : Int) (E : List String)
    (hd : newDate h s = some t0)
    (hr : ∀ k ∈ ([-2, -1, 0, 1, 2] : List Int),
      -8640000000000000 ≤ UTC h (LocalTime h t0 + k * msPerDay)
      ∧ UTC h (LocalTime h t0 + k * msPerDay) ≤ 8640000000000000) :
    findMatchingEventDate h s E
      = .ok (firstKnown E (s :: ([-2, -1, 1, 2] : List Int).map (probeText h t0))) := by
  unfold findMatchingEventDate
  simp only
  rw [firstKnown_cons, hd]
  by_cases hmem : s ∈ E
  · rw [if_pos hmem, if_pos hmem]
  · rw [if_neg hmem, if_neg hmem, probeOffsets_eq h t0 E _ hr]
    rfl

theorem sane_range (h : Host) (hs : h.Sane) (t0 k : Int)
    (h1 : -8000000000000000 ≤ t0) (h2 : t0 ≤ 8000000000000000) (hk : -2 ≤ k ∧ k ≤ 2) :
    -8640000000000000 ≤ UTC h (LocalTime h t0 + k * msPerDay)
    ∧ UTC h (LocalTime h t0 + k * msPerDay) ≤ 8640000000000000 := by
  obtain ⟨a1, a2, _, _⟩ := hs t0
  obtain ⟨_, _, b1, b2⟩ := hs (LocalTime h t0 + k * msPerDay)
  unfold UTC
  unfold LocalTime at b1 b2 ⊢
  unfold msPerDay at *
  constructor <;> omega

theorem probe_list_range (k : Int) (hk : k ∈ ([-2, -1, 0, 1, 2] : List Int)) :
    -2 ≤ k ∧ k ≤ 2 := by
  simp only [List.mem_cons, List.mem_singleton, List.not_mem_nil, or_false] at hk
  omega

/-- On a host whose offsets stay within a day, the matcher returns (it does not
throw) on every date-only string that `new Date` accepts. -/
theorem findMatchingEventDate_returns (h : Host) (hs : h.Sane) (s : String) (y m d : Int)
    (hf : isoDateFields s = some (y, m, d)) (hm : 1 ≤ m ∧ m ≤ 12) (hd : 1 ≤ d ∧ d ≤ 31)
    (E : List String) : ∃ r, findMatchingEventDate h s E = .ok r := by
  obtain ⟨a, b1, b2⟩ := newDate_of_fields h s y m d hf hm hd
  exact ⟨_, findMatchingEventDate_eq h s _ E a fun k hk =>
    sane_range h hs _ k (by omega) (by omega) (probe_list_range k hk)⟩

theorem iso_of_day (c : CalDate) (hv : c.Valid) (t : Int) (ht : Day t = c.dayNumber) :
    String.mk (isoDateOfTime t) = c.iso := by
  obtain ⟨a, b, e⟩ := fields_of_dayNumber c hv t ht
  unfold isoDateOfTime CalDate.iso
  rw [a, b, e, sub_add_cancel]

theorem probeText_fixed (h : Host) (off : Int)
    (hoff : ∀ t, h.utcOffset t = off ∧ h.localOffset t = off) (t k : Int) :
    probeText h t k = String.mk (isoDateOfTime (t + k * msPerDay)) := by
  unfold probeText UTC LocalTime
  rw [(hoff _).1, (hoff _).2]
  congr 2
  omega

/-- On a host with a constant offset from UTC the matcher does what the
specification says: it answers the first known date among the date itself, two
days before, one day before, one day after and two days after. -/
theorem findMatchingEventDate_fixed_offset (h : Host) (off : Int)
    (hoff : ∀ t, h.utcOffset t = off ∧ h.localOffset t = off)
    (s : String) (c : CalDate) (hs : parseCalDate s = some c) (E : List String) :
    findMatchingEventDate h s E = .ok (firstKnown E (matchCandidates s c)) := by
  obtain ⟨hd, hv, b1, b2⟩ := newDate_of_parseCalDate h s c hs
  have hpt : ∀ k, UTC h (LocalTime h (c.dayNumber * msPerDay) + k * msPerDay)
      = c.dayNumber * msPerDay + k * msPerDay := by
    intro k
    unfold UTC LocalTime
    rw [(hoff _).1, (hoff _).2]; omega
  rw [findMatchingEventDate_eq h s _ E hd]
  · have hday : ∀ k, Day (c.dayNumber * msPerDay + k * msPerDay) = c.dayNumber + k := by
      intro k; rw [Day_add_days, Day_of_midnight]
    have hp := prev_valid c hv
    have hn := next_valid c hv
    have e1 : probeText h (c.dayNumber * msPerDay) (-2) = c.prev.prev.iso := by
      rw [probeText_fixed h off hoff]
      apply iso_of_day _ (prev_valid _ hp)
      rw [hday, dayNumber_prev _ hp, dayNumber_prev _ hv]; omega
    have e2 : probeText h (c.dayNumber * msPerDay) (-1) = c.prev.iso := by
      rw [probeText_fixed h off hoff]
      apply iso_of_day _ hp
      rw [hday, dayNumber_prev _ hv]; omega
    have e3 : probeText h (c.dayNumber * msPerDay) 1 = c.next.iso := by
      rw [probeText_fixed h off hoff]
      apply iso_of_day _ hn
      rw [hday, dayNumber_next _ hv]
    have e4 : probeText h (c.dayNumber * msPerDay) 2 = c.next.next.iso := by
      rw [probeText_fixed h off hoff]
      apply iso_of_day _ (next_valid _ hn)
      rw [hday, dayNumber_next _ hn, dayNumber_next _ hv]; omega
    simp only [List.map_cons, List.map_nil, e1, e2, e3, e4, matchCandidates]
  · intro k hk
    rw [hpt]
    have := probe_list_range k hk
    unfold msPerDay at *
    constructor <;> omega

/-- C1, at a failing input: on a host on US Pacific time, where the clocks went
forward on 10 March 2024, the matcher asked for 9 March with the only known date
11 March, two days after, returns null: its probe at offset 2 yields 10 March
like the probe at offset 1. The sequence of the specification yields 11 March,
and so does the matcher on a host on UTC. After the clocks went back on
3 November 2024, asked for 4 November it does not find 3 November, one day
before, and it does return 1 November, three days before. The example of the
specification, 8 April against 6 April, yields 6 April. -/
theorem findMatchingEventDate_across_clock_change :
    parseCalDate "2024-03-09" = some { year := 2024, month := 3, day := 9 }
    ∧ firstKnown ["2024-03-11"]
        (matchCandidates "2024-03-09" { year := 2024, month := 3, day := 9 })
      = some "2024-03-11"
    ∧ findMatchingEventDate pacificHost "2024-03-09" ["2024-03-11"] = .ok none
    ∧ probeText pacificHost 1709942400000 1 = "2024-03-10"
    ∧ probeText pacificHost 1709942400000 2 = "2024-03-10"
    ∧ findMatchingEventDate utcHost "2024-03-09" ["2024-03-11"] = .ok (some "2024-03-11")
    ∧ findMatchingEventDate pacificHost "2024-11-04" ["2024-11-03"] = .ok none
    ∧ findMatchingEventDate pacificHost "2024-11-04" ["2024-11-01"]
      = .ok (some "2024-11-01")
    ∧ findMatchingEventDate pacificHost "2024-04-08" ["2024-04-06"]
      = .ok (some "2024-04-06") := by
  decide

/-! ## `getSeason` -/

/-- On a host that is on UTC or ahead of it by less than a day, the season is
the one the specification gives to the month and year written in the string. -/
theorem getSeason_east_of_utc (h : Host)
    (hoff : ∀ t, 0 ≤ h.utcOffset t ∧ h.utcOffset t < msPerDay)
    (s : String) (c : CalDate) (hs : parseCalDate s = some c) :
    getSeason h s = seasonLabel c.year c.month := by
  obtain ⟨hd, hv, _, _⟩ := newDate_of_parseCalDate h s c hs
  have hday : Day (LocalTime h (c.dayNumber * msPerDay)) = c.dayNumber := by
    obtain ⟨o1, o2⟩ := hoff (c.dayNumber * msPerDay)
    unfold LocalTime Day
    unfold msPerDay at *
    omega
  obtain ⟨a, b, _⟩ := fields_of_dayNumber c hv _ hday
  unfold getSeason seasonLabel
  simp only [hd, getMonth, getFullYear, Option.map_some', a, b, sub_add_cancel, yearText,
    ge_iff_le]

/-- C2, at a failing input: on a host on US Pacific time the season is taken
from the local date, which for a date-only string is the day before. The first
of March 2024 is labelled "Unknown 2024" where the month of the string gives
"Spring 2024"; the first of July is labelled Spring, the first of September
Unknown, the first of November Fall, and the first of January gets the year
before. On a host on UTC the first of March is "Spring 2024". -/
theorem getSeason_local_month :
    parseCalDate "2024-03-01" = some { year := 2024, month := 3, day := 1 }
    ∧ seasonLabel 2024 3 = "Spring 2024"
    ∧ getSeason pacificHost "2024-03-01" = "Unknown 2024"
    ∧ getSeason pacificHost "2024-07-01" = "Spring 2024"
    ∧ getSeason pacificHost "2024-09-01" = "Unknown 2024"
    ∧ getSeason pacificHost "2024-11-01" = "Fall 2024"
    ∧ getSeason pacificHost "2024-01-01" = "Unknown 2023"
    ∧ getSeason utcHost "2024-03-01" = "Spring 2024" := by
  decide

/-! ## Dictionaries -/

theorem dictGet_dictSet {V : Type} (o : Dict V) (k : String) (v : V) (key : String) :
    dictGet (dictSet o k v) key = if k = key then some v else dictGet o key := by
  induction o with
  | nil => simp [dictSet, dictGet]
  | cons e o ih =>
    obtain ⟨k0, v0⟩ := e
    unfold dictSet
    by_cases h0 : k0 = k
    · rw [if_pos h0]
      subst h0
      by_cases hk : k0 = key <;> simp [dictGet, hk]
    · rw [if_neg h0]
      by_cases hk : k0 = key
      · subst hk
        have hne : ¬ k = k0 := fun e => h0 e.symm
        simp [dictGet, hne]
      · simp [dictGet, hk, ih]

theorem dictGet_some_mem_keys {V : Type} (o : Dict V) (k : String) (v : V)
    (h : dictGet o k = some v) : k ∈ dictKeys o := by
  induction o with
  | nil => simp [dictGet] at h
  | cons e o ih =>
    obtain ⟨k0, v0⟩ := e
    unfold dictGet at h
    by_cases hk : k0 = k
    · subst hk; simp [dictKeys]
    · rw [if_neg hk] at h
      have := ih h
      simp only [dictKeys, List.map_cons, List.mem_cons] at this ⊢
      exact Or.inr this

theorem dictGet_none_of_not_mem {V : Type} (o : Dict V) (k : String)
    (h : k ∉ dictKeys o) : dictGet o k = none := by
  induction o with
  | nil => rfl
  | cons e o ih =>
    obtain ⟨k0, v0⟩ := e
    simp only [dictKeys, List.map_cons, List.mem_cons, not_or] at h
    unfold dictGet
    rw [if_neg (fun e => h.1 e.symm)]
    exact ih h.2

theorem mem_keys_dictSet {V : Type} (o : Dict V) (k : String) (v : V) (key : String) :
    key ∈ dictKeys (dictSet o k v) ↔ key = k ∨ key ∈ dictKeys o := by
  induction o with
  | nil => simp [dictSet, dictKeys]
  | cons e o ih =>
    obtain ⟨k0, v0⟩ := e
    unfold dictSet
    by_cases h0 : k0 = k
    · rw [if_pos h0]
      subst h0
      simp [dictKeys]
    · rw [if_neg h0]
      simp only [dictKeys, List.map_cons, List.mem_cons] at ih ⊢
      rw [ih]
      tauto

theorem nodup_keys_dictSet {V : Type} (o : Dict V) (k : String) (v : V)
    (h : (dictKeys o).Nodup) : (dictKeys (dictSet o k v)).Nodup := by
  induction o with
  | nil => simp [dictSet, dictKeys]
  | cons e o ih =>
    obtain ⟨k0, v0⟩ := e
    simp only [dictKeys, List.map_cons, List.nodup_cons] at h
    unfold dictSet
    by_cases h0 : k0 = k
    · rw [if_pos h0]
      simpa [dictKeys] using h
    · rw [if_neg h0]
      simp only [dictKeys, List.map_cons, List.nodup_cons]
      refine ⟨?_, ih h.2⟩
      intro hm
      have := (mem_keys_dictSet o k v k0).1 hm
      rcases this with e | e
      · exact h0 e
      · exact h.1 e

theorem objectEntries_perm {V : Type} (o : Dict V) : (objectEntries o).Perm o := by
  unfold objectEntries
  exact ((List.perm_insertionSort indexBefore _).append_right _).trans
    (List.filter_append_perm (fun e => (arrayIndex e.1).isSome) o)

theorem mem_objectEntries {V : Type} (o : Dict V) (e : String × V) :
    e ∈ objectEntries o ↔ e ∈ o :=
  (objectEntries_perm o).mem_iff

theorem objectEntries_nodup {V : Type} (o : Dict V) (h : (dictKeys o).Nodup) :
    (dictKeys (objectEntries o)).Nodup :=
  (((objectEntries_perm o).map Prod.fst).nodup_iff).2 h

theorem mem_objectKeys {V : Type} (o : Dict V) (k : String) :
    k ∈ objectKeys o ↔ k ∈ dictKeys o :=
  ((objectEntries_perm o).map Prod.fst).mem_iff

/-- A key that holds a character other than a digit is not an array index. -/
theorem decimalValue_none (cs : List Char) (acc : Nat) (c : Char) (hc : c ∈ cs)
    (hd : ¬ (48 ≤ c.toNat ∧ c.toNat ≤ 57)) : decimalValue acc cs = none := by
  induction cs generalizing acc with
  | nil => simp at hc
  | cons a cs ih =>
    unfold decimalValue
    by_cases ha : 48 ≤ a.toNat ∧ a.toNat ≤ 57
    · rw [if_pos ha]
      rcases List.mem_cons.1 hc with e | e
      · exact absurd (e ▸ ha) hd
      · exact ih _ e
    · rw [if_neg ha]

/-! ## Step 3: where the entries of the distance mapping come from -/

theorem fanOut_get (row : Dict DistanceInfo) (info : DistanceInfo) (dates : List String)
    (d : String) :
    dictGet (fanOut row info dates) d = if d ∈ dates then some info else dictGet row d := by
  induction dates generalizing row with
  | nil => simp [fanOut]
  | cons a ds ih =>
    have e : fanOut row info (a :: ds) = fanOut (dictSet row a info) info ds := rfl
    rw [e, ih, dictGet_dictSet]
    by_cases hd : d ∈ ds
    · simp [hd]
    · by_cases ha : a = d
      · subst ha; simp
      · have : ¬ d = a := fun e => ha e.symm
        simp [hd, ha, this]

theorem teamDistances_origin (sv : Services) (teamLoc : TeamLocation)
    (uls : List (String × UniqueLocation)) (n : Nat) (row : Dict DistanceInfo)
    (d : String) (v : DistanceInfo)
    (h : dictGet (teamDistances sv teamLoc uls n row).1 d = some v) :
    dictGet row d = some v ∨ ∃ data, v = makeDistanceInfo data := by
  induction uls generalizing n row with
  | nil => exact Or.inl h
  | cons e uls ih =>
    obtain ⟨K, venueLoc⟩ := e
    unfold teamDistances at h
    split at h
    · rename_i data _
      rcases ih _ _ h with h1 | h1
      · rw [fanOut_get] at h1
        split_ifs at h1
        · exact Or.inr ⟨data, (Option.some.inj h1).symm⟩
        · exact Or.inl h1
      · exact Or.inr h1
    · exact ih _ _ h

theorem allDistances_origin (sv : Services) (ul : Dict UniqueLocation)
    (tl : List (String × TeamLocation)) (n : Nat) (acc : Dict (Dict DistanceInfo))
    (T : String) (row : Dict DistanceInfo) (d : String) (v : DistanceInfo)
    (h1 : dictGet (allDistances sv ul tl n acc).1 T = some row)
    (h2 : dictGet row d = some v) :
    dictGet acc T = some row ∨ ∃ data, v = makeDistanceInfo data := by
  induction tl generalizing n acc with
  | nil => exact Or.inl h1
  | cons e tl ih =>
    obtain ⟨teamName, teamLoc⟩ := e
    unfold allDistances at h1
    simp only at h1
    rcases ih _ _ h1 with h3 | h3
    · rw [dictGet_dictSet] at h3
      split_ifs at h3
      · have e := Option.some.inj h3
        rw [← e] at h2
        rcases teamDistances_origin sv teamLoc _ n [] d v h2 with h4 | h4
        · simp [dictGet] at h4
        · exact Or.inr h4
      · exact Or.inl h3
    · exact Or.inr h3

theorem allDistances_frame (sv : Services) (ul : Dict UniqueLocation)
    (tl : List (String × TeamLocation)) (n : Nat) (acc : Dict (Dict DistanceInfo))
    (T : String) (hT : T ∉ dictKeys tl) :
    dictGet (allDistances sv ul tl n acc).1 T = dictGet acc T := by
  induction tl generalizing n acc with
  | nil => rfl
  | cons e tl ih =>
    obtain ⟨teamName, teamLoc⟩ := e
    simp only [dictKeys, List.map_cons, List.mem_cons, not_or] at hT
    unfold allDistances
    simp only
    rw [ih _ _ hT.2, dictGet_dictSet, if_neg (fun e => hT.1 e.symm)]

/-- Every entry of the distance mapping of a run is built by `makeDistanceInfo`
from an answer of the distance service. -/
theorem runDistances_origin (sv : Services) (teams : List TeamRow) (events : List EventRow)
    (T d : String) (v : DistanceInfo)
    (h : distanceEntry (runDistances sv teams events) T d = some v) :
    ∃ data, v = makeDistanceInfo data := by
  unfold distanceEntry at h
  cases hrow : dictGet (runDistances sv teams events) T with
  | none => rw [hrow] at h; simp at h
  | some row =>
    rw [hrow] at h
    simp only [Option.some_bind] at h
    rcases allDistances_origin sv _ _ _ [] T row d v hrow h with h1 | h1
    · simp [dictGet] at h1
    · exact h1

theorem runDistances_no_team (sv : Services) (teams : List TeamRow) (events : List EventRow)
    (T : String) (hT : T ∉ dictKeys (runTeamLocations sv teams)) :
    dictGet (runDistances sv teams events) T = none := by
  unfold runDistances calculateDistances
  rw [allDistances_frame sv _ _ _ [] T
    (fun hm => hT ((mem_objectKeys _ T).1 hm))]
  rfl

/-! ## Step 4: the attendance join -/

theorem truthyDate_some (m : String) (hm : m ≠ "") : truthyDate (some m) = some m := by
  unfold truthyDate
  simp [hm]

theorem truthyDate_eq_some (matched : Option String) (m : String)
    (h : truthyDate matched = some m) : matched = some m := by
  unfold truthyDate at h
  split at h
  · split_ifs at h
    rw [Option.some.inj h]
  · exact absurd h (by simp)

theorem joinRecord_travel (h : Host) (el : Dict EventLocation) (dist : Dict (Dict DistanceInfo))
    (st st1 : JoinState) (record : AttendanceRow)
    (hj : joinRecord h el dist st record = .ok st1) :
    ∀ r ∈ st1.travelData, r ∈ st.travelData ∨ r.FromJoin el dist := by
  intro r hr
  unfold joinRecord at hj
  simp only at hj
  split_ifs at hj with hteam
  · split at hj
    · exact absurd hj (by simp)
    · split at hj
      · simp only [Except.ok.injEq] at hj
        subst hj
        exact Or.inl hr
      · simp only [Except.ok.injEq] at hj
        subst hj
        exact Or.inl hr
  · split at hj
    · exact absurd hj (by simp)
    · rename_i matched hfind
      split at hj
      · rename_i m d hmd
        simp only [Except.ok.injEq] at hj
        subst hj
        simp only [List.mem_append, List.mem_singleton] at hr
        rcases hr with hr | hr
        · exact Or.inl hr
        · right
          subst hr
          cases ht : truthyDate matched with
          | none => rw [ht] at hmd; simp at hmd
          | some m1 =>
            rw [ht] at hmd
            simp only [Option.some_bind, Option.map_eq_some', Prod.mk.injEq] at hmd
            obtain ⟨d1, hd1, e1, e2⟩ := hmd
            subst e1 e2
            have hfind2 := truthyDate_eq_some _ _ ht
            rw [hfind2] at hfind
            have hmem := (findMatchingEventDate_sound h _ _ _ hfind).1
            exact ⟨hteam, hmem, rfl, d1, hd1, rfl, rfl, rfl, rfl, rfl, rfl⟩
      · simp only [Except.ok.injEq] at hj
        subst hj
        exact Or.inl hr

theorem joinAttendance_travel (h : Host) (el : Dict EventLocation)
    (dist : Dict (Dict DistanceInfo)) (st st1 : JoinState) (attendance : List AttendanceRow)
    (hj : joinAttendance h el dist st attendance = .ok st1) :
    ∀ r ∈ st1.travelData, r ∈ st.travelData ∨ r.FromJoin el dist := by
  induction attendance generalizing st with
  | nil =>
    simp only [joinAttendance, Except.ok.injEq] at hj
    subst hj
    exact fun r hr => Or.inl hr
  | cons record rest ih =>
    unfold joinAttendance at hj
    split at hj
    · exact absurd hj (by simp)
    · rename_i st2 hst2
      intro r hr
      rcases ih st2 hj r hr with h1 | h1
      · exact joinRecord_travel h el dist st st2 record hst2 r h1
      · exact Or.inr h1

/-- The report of a run, read back: its mappings are those of steps 1 to 3 and
each of its travel records was emitted by the join against them. -/
theorem run_report (h : Host) (sv : Services) (teams : List TeamRow) (events : List EventRow)
    (attendance : List AttendanceRow) (out : Report)
    (hrun : calculateAllDistances h sv teams events attendance = .ok out) :
    out.team_locations = runTeamLocations sv teams
    ∧ out.event_locations = runEventLocations sv teams events
    ∧ out.distances = runDistances sv teams events
    ∧ ∀ r ∈ out.travel_data,
        r.FromJoin (runEventLocations sv teams events) (runDistances sv teams events) := by
  unfold calculateAllDistances at hrun
  simp only at hrun
  split at hrun
  · exact absurd hrun (by simp)
  · rename_i st hst
    simp only [Except.ok.injEq] at hrun
    subst hrun
    refine ⟨rfl, rfl, rfl, ?_⟩
    intro r hr
    rcases joinAttendance_travel h _ _ _ _ _ hst r hr with h1 | h1
    · simp at h1
    · exact h1

/-! ## The claims about the attendance join -/

/-- C3: an attendance record of the sentinel team "Independent" whose date is
matched to the event date `m` appends exactly one IndependentRecord, carrying the
original date, the matched event date and the riders, and leaves the travel and
unmatched lists as they were; and no travel record of any run has the team
"Independent". -/
theorem sentinel_record_joined (h : Host) (el : Dict EventLocation)
    (dist : Dict (Dict DistanceInfo)) (st : JoinState) (r : AttendanceRow) (m : String)
    (hteam : r.team = "Independent") (hdate : r.race_date_iso ≠ "")
    (hmatch : findMatchingEventDate h r.race_date_iso (dictKeys el) = .ok (some m)) :
    joinRecord h el dist st r
      = .ok { travelData := st.travelData,
              independentData := st.independentData ++
                [{ date := r.race_date_iso,
                   event_date := m,
                   riders := r.riders,
                   venue := (dictGet el m).map fun l => l.venue,
                   city := (dictGet el m).map fun l => l.city,
                   season := getSeason h r.race_date_iso }],
              unmatchedAttendance := st.unmatchedAttendance }
    ∧ ∀ (sv : Services) (teams : List TeamRow) (events : List EventRow)
        (attendance : List AttendanceRow) (out : Report),
        calculateAllDistances h sv teams events attendance = .ok out →
        ∀ t ∈ out.travel_data, t.team ≠ "Independent" := by
  constructor
  · have hm : m ≠ "" := (findMatchingEventDate_sound h _ _ _ hmatch).2 hdate
    unfold joinRecord
    simp only [hteam, if_true, hmatch, truthyDate_some m hm]
  · intro sv teams events attendance out hrun t ht
    exact ((run_report h sv teams events attendance out hrun).2.2.2 t ht).1

/-- An Independent record of 8 April joins the event of 6 April. -/
theorem sentinel_record_joined_witness :
    findMatchingEventDate pacificHost "2024-04-08" (dictKeys exampleEventLocations)
      = .ok (some "2024-04-06")
    ∧ joinRecord pacificHost exampleEventLocations exampleDistances emptyJoinState
        { team := "Independent", race_date_iso := "2024-04-08", riders := 3 }
      = .ok { travelData := [],
              independentData :=
                [{ date := "2024-04-08", event_date := "2024-04-06", riders := 3,
                   venue := some "X Track", city := some "Spokane",
                   season := "Spring 2024" }],
              unmatchedAttendance := [] } :=
  ⟨by decide,
   (sentinel_record_joined pacificHost exampleEventLocations exampleDistances emptyJoinState
      { team := "Independent", race_date_iso := "2024-04-08", riders := 3 } "2024-04-06"
      rfl (by decide) (by decide)).1⟩

/-- C4, against the claim as stated: in the run of the scenario with one more
attendance record, of the sentinel team and on a date with no event within two
days, the matcher returns null, the run completes, and the record appears in
none of the three lists, the unmatched list included. -/
theorem sentinel_unmatched_dropped :
    findMatchingEventDate pacificHost "2024-05-08"
        (dictKeys (runEventLocations exampleServices exampleTeams exampleEvents))
      = .ok none
    ∧ (calculateAllDistances pacificHost exampleServices exampleTeams exampleEvents
        [{ team := "Independent", race_date_iso := "2024-05-08", riders := 3 }]).map
        (fun out => (out.travel_data.length, out.independent_data.length,
          out.unmatchedAttendance.length))
      = .ok (0, 0, 0) := by
  decide

/-- C4, amended: an attendance record whose date cannot be matched (the matcher
returns null) appends one UnmatchedRecord with its team, date and riders when its
team is not the sentinel, and leaves all three lists unchanged when its team is
the sentinel. -/
theorem unmatched_record_joined (h : Host) (el : Dict EventLocation)
    (dist : Dict (Dict DistanceInfo)) (st : JoinState) (r : AttendanceRow)
    (hmatch : findMatchingEventDate h r.race_date_iso (dictKeys el) = .ok none) :
    (r.team ≠ "Independent" →
      joinRecord h el dist st r
        = .ok { travelData := st.travelData,
                independentData := st.independentData,
                unmatchedAttendance := st.unmatchedAttendance ++
                  [{ team := r.team, date := r.race_date_iso, riders := r.riders }] })
    ∧ (r.team = "Independent" → joinRecord h el dist st r = .ok st) := by
  constructor
  · intro hteam
    unfold joinRecord
    simp only [hteam, if_false, hmatch, truthyDate, Option.none_bind]
  · intro hteam
    unfold joinRecord
    simp only [hteam, if_true, hmatch, truthyDate]

/-- A team record of 8 May, with no event within two days, lands in the unmatched list. -/
theorem unmatched_record_joined_witness :
    findMatchingEventDate pacificHost "2024-05-08" (dictKeys exampleEventLocations) = .ok none
    ∧ joinRecord pacificHost exampleEventLocations exampleDistances emptyJoinState
        { team := "Seattle", race_date_iso := "2024-05-08", riders := 4 }
      = .ok { travelData := [], independentData := [],
              unmatchedAttendance :=
                [{ team := "Seattle", date := "2024-05-08", riders := 4 }] } :=
  ⟨by decide,
   (unmatched_record_joined pacificHost exampleEventLocations exampleDistances emptyJoinState
      { team := "Seattle", race_date_iso := "2024-05-08", riders := 4 } (by decide)).1
      (by decide)⟩

theorem pacificHost_sane : pacificHost.Sane := by
  intro t
  unfold pacificHost
  simp only
  split_ifs <;> decide

/-- The matcher throws on a date that is not itself an event date and that
`new Date` cannot read. -/
theorem findMatchingEventDate_throws (h : Host) (s : String) (E : List String)
    (hmem : s ∉ E) (hd : newDate h s = none) :
    findMatchingEventDate h s E = .error (.RangeError "Invalid time value") := by
  unfold findMatchingEventDate
  simp only
  rw [if_neg hmem, hd]
  rfl

/-- C5, against the claim as stated: a record of the team Seattle dated
"someday", which is not an event date and which `new Date` cannot read, gets no
output record: `toISOString` throws inside the matcher, the join throws, and
the run of the scenario with this record ends with the exception instead of a
report. -/
theorem unreadable_date_aborts :
    newDate pacificHost "someday" = none
    ∧ findMatchingEventDate pacificHost "someday" (dictKeys exampleEventLocations)
      = .error (.RangeError "Invalid time value")
    ∧ joinRecord pacificHost exampleEventLocations exampleDistances emptyJoinState
        { team := "Seattle", race_date_iso := "someday", riders := 2 }
      = .error (.RangeError "Invalid time value")
    ∧ calculateAllDistances pacificHost exampleServices exampleTeams exampleEvents
        [{ team := "Seattle", race_date_iso := "someday", riders := 2 }]
      = .error (.RangeError "Invalid time value") :=
  ⟨by decide, by decide, rfl, rfl⟩

/-- C5, amended: an attendance record of a team other than the sentinel, with a
non-empty date, gets exactly one output record whenever the matcher returns:
one TravelRecord with the team, the original date, the riders and the matched
date when the matcher returns a date for which the distance mapping holds an
entry of the team, one UnmatchedRecord with the team, date and riders in every
other case, and nothing else changes. When the matcher throws, the join throws
the same exception and no record is produced. The matcher returns when the date
is itself an event date, and, on a host whose offsets stay within a day, when
`new Date` reads the date as a time within 8 * 10^15 ms of the epoch, as it does
every valid ISO calendar date; it throws when the date is not an event date and
`new Date` cannot read it. In particular, against the mappings of a run, a record
of a team without a team location, on which the matcher returns, always lands in
the unmatched list. -/
theorem team_record_joined (h : Host) (el : Dict EventLocation)
    (dist : Dict (Dict DistanceInfo)) (st : JoinState) (r : AttendanceRow)
    (hteam : r.team ≠ "Independent") (hdate : r.race_date_iso ≠ "") :
    (∀ matched, findMatchingEventDate h r.race_date_iso (dictKeys el) = .ok matched →
      ((∃ m, matched = some m ∧ (distanceEntry dist r.team m).isSome) →
          ∃ m d tr, matched = some m ∧ distanceEntry dist r.team m = some d
            ∧ joinRecord h el dist st r
                = .ok { travelData := st.travelData ++ [tr],
                        independentData := st.independentData,
                        unmatchedAttendance := st.unmatchedAttendance }
            ∧ tr.team = r.team ∧ tr.date = r.race_date_iso ∧ tr.riders = r.riders
            ∧ tr.event_date = m)
      ∧ (¬ (∃ m, matched = some m ∧ (distanceEntry dist r.team m).isSome) →
          joinRecord h el dist st r
            = .ok { travelData := st.travelData,
                    independentData := st.independentData,
                    unmatchedAttendance := st.unmatchedAttendance ++
                      [{ team := r.team, date := r.race_date_iso, riders := r.riders }] }))
    ∧ (∀ e, findMatchingEventDate h r.race_date_iso (dictKeys el) = .error e →
        joinRecord h el dist st r = .error e)
    ∧ (r.race_date_iso ∈ dictKeys el →
        findMatchingEventDate h r.race_date_iso (dictKeys el) = .ok (some r.race_date_iso))
    ∧ (h.Sane → ∀ t0, newDate h r.race_date_iso = some t0 →
        -8000000000000000 ≤ t0 → t0 ≤ 8000000000000000 →
        ∃ matched, findMatchingEventDate h r.race_date_iso (dictKeys el) = .ok matched)
    ∧ (h.Sane → ∀ c, parseCalDate r.race_date_iso = some c →
        ∃ matched, findMatchingEventDate h r.race_date_iso (dictKeys el) = .ok matched)
    ∧ (r.race_date_iso ∉ dictKeys el → newDate h r.race_date_iso = none →
        joinRecord h el dist st r = .error (.RangeError "Invalid time value"))
    ∧ ∀ (sv : Services) (teams : List TeamRow) (events : List EventRow) matched,
        r.team ∉ dictKeys (runTeamLocations sv teams) →
        findMatchingEventDate h r.race_date_iso
            (dictKeys (runEventLocations sv teams events)) = .ok matched →
        joinRecord h (runEventLocations sv teams events) (runDistances sv teams events) st r
          = .ok { travelData := st.travelData,
                  independentData := st.independentData,
                  unmatchedAttendance := st.unmatchedAttendance ++
                    [{ team := r.team, date := r.race_date_iso, riders := r.riders }] } := by
  have herr : ∀ e, findMatchingEventDate h r.race_date_iso (dictKeys el) = .error e →
      joinRecord h el dist st r = .error e := by
    intro e he
    unfold joinRecord
    simp only [hteam, if_false, he]
  have hret : h.Sane → ∀ t0, newDate h r.race_date_iso = some t0 →
      -8000000000000000 ≤ t0 → t0 ≤ 8000000000000000 →
      ∃ matched, findMatchingEventDate h r.race_date_iso (dictKeys el) = .ok matched := by
    intro hs t0 hd b1 b2
    exact ⟨_, findMatchingEventDate_eq h _ _ _ hd fun k hk =>
      sane_range h hs _ k b1 b2 (probe_list_range k hk)⟩
  refine ⟨?_, herr, ?_, hret, ?_, ?_, ?_⟩
  · intro matched hmatch
    constructor
    · rintro ⟨m, hm, hsome⟩
      obtain ⟨d, hd⟩ := Option.isSome_iff_exists.1 hsome
      subst hm
      have hm0 : m ≠ "" := (findMatchingEventDate_sound h _ _ _ hmatch).2 hdate
      have hd2 : ((dictGet dist r.team).bind fun row => dictGet row m) = some d := hd
      refine ⟨m, d,
        { team := r.team,
          date := r.race_date_iso,
          event_date := m,
          riders := r.riders,
          vehicles := Math_ceil (r.riders / RIDERS_PER_VEHICLE),
          one_way_miles := d.one_way_miles,
          round_trip_miles := d.round_trip_miles,
          total_miles_traveled := d.round_trip_miles * Math_ceil (r.riders / RIDERS_PER_VEHICLE),
          one_way_minutes := d.one_way_minutes,
          round_trip_minutes := d.round_trip_minutes,
          total_minutes_traveled :=
            d.round_trip_minutes * Math_ceil (r.riders / RIDERS_PER_VEHICLE),
          venue := (dictGet el m).map fun l => l.venue,
          city := (dictGet el m).map fun l => l.city,
          season := getSeason h r.race_date_iso }, rfl, hd, ?_, rfl, rfl, rfl, rfl⟩
      unfold joinRecord
      simp only [hteam, if_false, hmatch, truthyDate_some m hm0, Option.some_bind, hd2,
        Option.map_some']
    · intro hno
      have hnone : ((truthyDate matched).bind fun matchedEventDate =>
          ((dictGet dist r.team).bind fun row => dictGet row matchedEventDate).map
            fun d => (matchedEventDate, d)) = none := by
        cases ht : truthyDate matched with
        | none => rfl
        | some m =>
          have hm := truthyDate_eq_some _ _ ht
          simp only [Option.some_bind, Option.map_eq_none']
          cases hd : ((dictGet dist r.team).bind fun row => dictGet row m) with
          | none => rfl
          | some d =>
            exact absurd ⟨m, hm, by unfold distanceEntry; rw [hd]; rfl⟩ hno
      unfold joinRecord
      simp only [hteam, if_false, hmatch, hnone]
  · intro hmem
    unfold findMatchingEventDate
    simp only
    rw [if_pos hmem]
  · intro hs c hc
    obtain ⟨hd, _, b1, b2⟩ := newDate_of_parseCalDate h _ c hc
    exact hret hs _ hd (by omega) (by omega)
  · intro hmem hd
    exact herr _ (findMatchingEventDate_throws h _ _ hmem hd)
  · intro sv teams events matched hT hmatch
    have hrow := runDistances_no_team sv teams events r.team hT
    unfold joinRecord
    simp only [hteam, if_false, hmatch, hrow, Option.none_bind, Option.map_none',
      Option.bind_none]

/-- A record of a team that was never geocoded lands in the unmatched list although its
date matches an event, and a record dated "someday" makes the join throw. -/
theorem team_record_joined_witness :
    findMatchingEventDate pacificHost "2024-04-07" (dictKeys exampleEventLocations)
        = .ok (some "2024-04-06")
    ∧ joinRecord pacificHost exampleEventLocations exampleDistances emptyJoinState
        { team := "Tacoma", race_date_iso := "2024-04-07", riders := 2 }
      = .ok { travelData := [], independentData := [],
              unmatchedAttendance :=
                [{ team := "Tacoma", date := "2024-04-07", riders := 2 }] }
    ∧ joinRecord pacificHost exampleEventLocations exampleDistances emptyJoinState
        { team := "Tacoma", race_date_iso := "someday", riders := 2 }
      = .error (.RangeError "Invalid time value") :=
  ⟨by decide,
   (team_record_joined pacificHost exampleEventLocations exampleDistances
      emptyJoinState { team := "Tacoma", race_date_iso := "2024-04-07", riders := 2 }
      (by decide) (by decide)).2.2.2.2.2.2
      exampleServices exampleTeams exampleEvents (some "2024-04-06") (by decide) (by decide),
   (team_record_joined pacificHost exampleEventLocations exampleDistances
      emptyJoinState { team := "Tacoma", race_date_iso := "someday", riders := 2 }
      (by decide) (by decide)).2.2.2.2.2.1 (by decide) (by decide)⟩

/-- Dates outside the calendar and dates a day past the end of a month are read
by `new Date` as in V8 and joined: 30 February 2024 is read as 1 March, and the
matcher finds 29 February, one day before it. -/
theorem rolled_over_date_is_matched :
    parseCalDate "2024-02-30" = none
    ∧ newDate pacificHost "2024-02-30" = newDate pacificHost "2024-03-01"
    ∧ findMatchingEventDate pacificHost "2024-02-30" ["2024-02-29"]
      = .ok (some "2024-02-29") := by
  decide

/-- On a host whose offsets stay within a day, the join of a record dated with a
valid ISO calendar date returns. -/
theorem joinRecord_returns (h : Host) (hs : h.Sane) (el : Dict EventLocation)
    (dist : Dict (Dict DistanceInfo)) (st : JoinState) (r : AttendanceRow) (c : CalDate)
    (hdate : parseCalDate r.race_date_iso = some c) :
    ∃ st1, joinRecord h el dist st r = .ok st1 := by
  obtain ⟨hd, _, b1, b2⟩ := newDate_of_parseCalDate h _ c hdate
  have hmatch := findMatchingEventDate_eq h _ _ (dictKeys el) hd fun k hk =>
    sane_range h hs _ k (by omega) (by omega) (probe_list_range k hk)
  unfold joinRecord
  simp only [hmatch]
  split_ifs
  · split <;> exact ⟨_, rfl⟩
  · split <;> exact ⟨_, rfl⟩

/-- On a host whose offsets stay within a day, a run in which every attendance
record is dated with a valid ISO calendar date completes and yields a report. -/
theorem calculateAllDistances_returns (h : Host) (hs : h.Sane) (sv : Services)
    (teams : List TeamRow) (events : List EventRow) (attendance : List AttendanceRow)
    (hdates : ∀ r ∈ attendance, ∃ c, parseCalDate r.race_date_iso = some c) :
    ∃ out, calculateAllDistances h sv teams events attendance = .ok out := by
  have hjoin : ∀ (el : Dict EventLocation) (dist : Dict (Dict DistanceInfo))
      (rows : List AttendanceRow),
      (∀ r ∈ rows, ∃ c, parseCalDate r.race_date_iso = some c) →
      ∀ st, ∃ st1, joinAttendance h el dist st rows = .ok st1 := by
    intro el dist rows
    induction rows with
    | nil => intro _ st; exact ⟨st, rfl⟩
    | cons r rest ih =>
      intro hr st
      obtain ⟨c, hc⟩ := hr r (List.mem_cons_self _ _)
      obtain ⟨st1, h1⟩ := joinRecord_returns h hs el dist st r c hc
      obtain ⟨st2, h2⟩ := ih (fun r hr2 => hr r (List.mem_cons_of_mem _ hr2)) st1
      refine ⟨st2, ?_⟩
      unfold joinAttendance
      rw [h1]
      exact h2
  obtain ⟨st, hst⟩ := hjoin (runEventLocations sv teams events)
    (runDistances sv teams events) attendance hdates
    { travelData := [], independentData := [], unmatchedAttendance := [] }
  have hst2 : joinAttendance h (geocodeEvents sv events (geocodeTeams sv teams 0 []).2 []).1
      (calculateDistances sv (geocodeTeams sv teams 0 []).1
        (buildUniqueLocations (geocodeEvents sv events (geocodeTeams sv teams 0 []).2 []).1)
        (geocodeEvents sv events (geocodeTeams sv teams 0 []).2 []).2).1
      { travelData := [], independentData := [], unmatchedAttendance := [] } attendance
      = .ok st := hst
  unfold calculateAllDistances
  simp only [hst2]
  exact ⟨_, rfl⟩

/-! ## The claims about the travel records of a run -/

/-- C6: in every travel record of every run, whatever the inputs and the answers
of the two services, the round trip is twice the one-way figure, for miles and
for minutes, and the totals are the round trip times the number of vehicles
(arithmetic over the rationals). -/
theorem travel_record_totals (h : Host) (sv : Services) (teams : List TeamRow)
    (events : List EventRow) (attendance : List AttendanceRow) (out : Report)
    (hrun : calculateAllDistances h sv teams events attendance = .ok out)
    (r : TravelRecord) (hr : r ∈ out.travel_data) :
    r.round_trip_miles = 2 * r.one_way_miles
    ∧ r.round_trip_minutes = 2 * r.one_way_minutes
    ∧ r.total_miles_traveled = r.round_trip_miles * r.vehicles
    ∧ r.total_minutes_traveled = r.round_trip_minutes * r.vehicles := by
  obtain ⟨_, _, _, d, hd, e1, e2, e3, e4, e5, e6⟩ :=
    (run_report h sv teams events attendance out hrun).2.2.2 r hr
  obtain ⟨data, hdata⟩ := runDistances_origin sv teams events _ _ d hd
  subst hdata
  refine ⟨?_, ?_, by rw [e5, e2], by rw [e6, e4]⟩
  · rw [e2, e1]; exact mul_comm _ _
  · rw [e4, e3]; exact mul_comm _ _

/-- The travel record of the end-to-end scenario has doubled round trips and totals per
vehicle. -/
theorem travel_record_totals_witness :
    calculateAllDistances pacificHost exampleServices exampleTeams exampleEvents
        exampleAttendance
      = .ok { team_locations := runTeamLocations exampleServices exampleTeams,
              event_locations := exampleEventLocations,
              distances := exampleDistances,
              travel_data := [exampleTravelRecord],
              independent_data := [],
              unmatchedAttendance := [] }
    ∧ exampleTravelRecord.round_trip_miles = 2 * exampleTravelRecord.one_way_miles
    ∧ exampleTravelRecord.round_trip_minutes = 2 * exampleTravelRecord.one_way_minutes
    ∧ exampleTravelRecord.total_miles_traveled
        = exampleTravelRecord.round_trip_miles * exampleTravelRecord.vehicles
    ∧ exampleTravelRecord.total_minutes_traveled
        = exampleTravelRecord.round_trip_minutes * exampleTravelRecord.vehicles :=
  ⟨rfl,
   travel_record_totals pacificHost exampleServices exampleTeams exampleEvents
     exampleAttendance _ rfl exampleTravelRecord (List.mem_singleton.2 rfl)⟩

/-- C7: RIDERS_PER_VEHICLE is 2, and in every travel record of every run the
number of vehicles is the riders divided by two, rounded up; it is at least 1
when there is at least a rider, and it is 3 for five riders. -/
theorem travel_record_vehicles (h : Host) (sv : Services) (teams : List TeamRow)
    (events : List EventRow) (attendance : List AttendanceRow) (out : Report)
    (hrun : calculateAllDistances h sv teams events attendance = .ok out)
    (r : TravelRecord) (hr : r ∈ out.travel_data) :
    RIDERS_PER_VEHICLE = 2
    ∧ r.vehicles = ⌈r.riders / 2⌉
    ∧ (0 < r.riders → 1 ≤ r.vehicles)
    ∧ (r.riders = 5 → r.vehicles = 3) := by
  obtain ⟨_, _, hv, _⟩ := (run_report h sv teams events attendance out hrun).2.2.2 r hr
  have hv2 : r.vehicles = ⌈r.riders / 2⌉ := hv
  refine ⟨rfl, hv2, ?_, ?_⟩
  · intro hpos
    rw [hv2, Int.one_le_ceil_iff]
    positivity
  · intro h5
    rw [hv2, h5, Int.ceil_eq_iff]
    norm_num

/-- The travel record of the end-to-end scenario: five riders, three vehicles, season
"Spring 2024". -/
theorem travel_record_vehicles_witness :
    calculateAllDistances pacificHost exampleServices exampleTeams exampleEvents
        exampleAttendance
      = .ok { team_locations := runTeamLocations exampleServices exampleTeams,
              event_locations := exampleEventLocations,
              distances := exampleDistances,
              travel_data := [exampleTravelRecord],
              independent_data := [],
              unmatchedAttendance := [] }
    ∧ exampleTravelRecord.riders = 5
    ∧ exampleTravelRecord.vehicles = 3
    ∧ exampleTravelRecord.season = "Spring 2024" :=
  ⟨rfl, rfl,
   (travel_record_vehicles pacificHost exampleServices exampleTeams exampleEvents
     exampleAttendance _ rfl exampleTravelRecord (List.mem_singleton.2 rfl)).2.2.2 rfl,
   rfl⟩

/-- C8: in the report of every run, the event date of every travel record is a
key of the event locations and a key of the distance mapping of the record's
team, and the record's one-way and round-trip figures are those of that entry. -/
theorem travel_record_keys (h : Host) (sv : Services) (teams : List TeamRow)
    (events : List EventRow) (attendance : List AttendanceRow) (out : Report)
    (hrun : calculateAllDistances h sv teams events attendance = .ok out)
    (r : TravelRecord) (hr : r ∈ out.travel_data) :
    r.event_date ∈ dictKeys out.event_locations
    ∧ ∃ row d, dictGet out.distances r.team = some row
        ∧ r.event_date ∈ dictKeys row
        ∧ dictGet row r.event_date = some d
        ∧ r.one_way_miles = d.one_way_miles
        ∧ r.round_trip_miles = d.round_trip_miles
        ∧ r.one_way_minutes = d.one_way_minutes
        ∧ r.round_trip_minutes = d.round_trip_minutes := by
  obtain ⟨_, hel, hdist, hall⟩ := run_report h sv teams events attendance out hrun
  obtain ⟨_, hmem, _, d, hd, e1, e2, e3, e4, _, _⟩ := hall r hr
  rw [hel, hdist]
  refine ⟨hmem, ?_⟩
  unfold distanceEntry at hd
  cases hrow : dictGet (runDistances sv teams events) r.team with
  | none => rw [hrow] at hd; simp at hd
  | some row =>
    rw [hrow] at hd
    simp only [Option.some_bind] at hd
    exact ⟨row, d, rfl, dictGet_some_mem_keys row _ d hd, hd, e1, e2, e3, e4⟩

/-- The event date of the travel record of the end-to-end scenario is a key of the event
locations. -/
theorem travel_record_keys_witness :
    calculateAllDistances pacificHost exampleServices exampleTeams exampleEvents
        exampleAttendance
      = .ok { team_locations := runTeamLocations exampleServices exampleTeams,
              event_locations := exampleEventLocations,
              distances := exampleDistances,
              travel_data := [exampleTravelRecord],
              independent_data := [],
              unmatchedAttendance := [] }
    ∧ exampleTravelRecord.event_date ∈ dictKeys exampleEventLocations :=
  ⟨rfl,
   (travel_record_keys pacificHost exampleServices exampleTeams exampleEvents
     exampleAttendance _ rfl exampleTravelRecord (List.mem_singleton.2 rfl)).1⟩

/-! ## Step 3: the unique venue locations -/

theorem groupEntries_snoc (es : List (String × EventLocation)) (e : String × EventLocation)
    (K : String) :
    groupEntries (es ++ [e]) K
      = groupEntries es K ++ (if locationKey e.2 = K then [e] else []) := by
  unfold groupEntries
  rw [List.filter_append]
  by_cases hk : locationKey e.2 = K <;> simp [List.filter, hk]

theorem groupOf_snoc (es : List (String × EventLocation)) (e : String × EventLocation) :
    groupOf (es ++ [e])
      = match groupOf es with
        | none => some { loc := e.2, dates := [e.1] }
        | some group => some { group with dates := group.dates ++ [e.1] } := by
  cases es with
  | nil => rfl
  | cons f fs => simp [groupOf]

theorem dictGet_addUniqueLocation (u : Dict UniqueLocation) (e : String × EventLocation)
    (K : String) :
    dictGet (addUniqueLocation u e) K
      = if locationKey e.2 = K then
          (match dictGet u (locationKey e.2) with
            | none => some { loc := e.2, dates := [e.1] }
            | some group => some { group with dates := group.dates ++ [e.1] })
        else dictGet u K := by
  unfold addUniqueLocation
  cases hg : dictGet u (locationKey e.2) with
  | none => simp only [dictGet_dictSet]
  | some group => simp only [dictGet_dictSet]

theorem nodup_addUniqueLocation (u : Dict UniqueLocation) (e : String × EventLocation)
    (h : (dictKeys u).Nodup) : (dictKeys (addUniqueLocation u e)).Nodup := by
  unfold addUniqueLocation
  split <;> exact nodup_keys_dictSet _ _ _ h

/-- Grouping a list of entries: the group stored under a key collects exactly the
entries with that key, in the order of the list. -/
theorem foldl_addUniqueLocation_get (es : List (String × EventLocation)) (K : String) :
    dictGet (es.foldl addUniqueLocation []) K = groupOf (groupEntries es K) := by
  induction es using List.reverseRecOn with
  | nil => rfl
  | append_singleton es e ih =>
    rw [List.foldl_append, groupEntries_snoc]
    show dictGet (addUniqueLocation (es.foldl addUniqueLocation []) e) K = _
    rw [dictGet_addUniqueLocation]
    by_cases hk : locationKey e.2 = K
    · rw [if_pos hk, if_pos hk, groupOf_snoc, ← ih, hk]
    · rw [if_neg hk, if_neg hk, List.append_nil, ih]

/-- The group stored under a key collects exactly the event locations with that
key, in the order in which `Object.entries` enumerates them. -/
theorem buildUniqueLocations_get (el : Dict EventLocation) (K : String) :
    dictGet (buildUniqueLocations el) K = groupOf (groupEntries (objectEntries el) K) :=
  foldl_addUniqueLocation_get _ K

theorem foldl_addUniqueLocation_nodup (es : List (String × EventLocation)) :
    (dictKeys (es.foldl addUniqueLocation [])).Nodup := by
  induction es using List.reverseRecOn with
  | nil => simp [dictKeys]
  | append_singleton es e ih =>
    rw [List.foldl_append]
    exact nodup_addUniqueLocation _ e ih

theorem buildUniqueLocations_nodup (el : Dict EventLocation) :
    (dictKeys (buildUniqueLocations el)).Nodup :=
  foldl_addUniqueLocation_nodup _

theorem groupOf_dates (es : List (String × EventLocation)) (group : UniqueLocation)
    (h : groupOf es = some group) : group.dates = es.map Prod.fst := by
  cases es with
  | nil => simp [groupOf] at h
  | cons f fs =>
    simp only [groupOf, Option.some.injEq] at h
    rw [← h]

theorem mem_of_dictGet {V : Type} (o : Dict V) (k : String) (v : V)
    (h : dictGet o k = some v) : (k, v) ∈ o := by
  induction o with
  | nil => simp [dictGet] at h
  | cons e o ih =>
    obtain ⟨k0, v0⟩ := e
    unfold dictGet at h
    by_cases hk : k0 = k
    · rw [if_pos hk] at h
      rw [hk, Option.some.inj h]
      exact List.mem_cons_self _ _
    · rw [if_neg hk] at h
      exact List.mem_cons_of_mem _ (ih h)

theorem dictGet_of_mem {V : Type} (o : Dict V) (k : String) (v : V)
    (hn : (dictKeys o).Nodup) (h : (k, v) ∈ o) : dictGet o k = some v := by
  induction o with
  | nil => simp at h
  | cons e o ih =>
    obtain ⟨k0, v0⟩ := e
    simp only [dictKeys, List.map_cons, List.nodup_cons] at hn
    unfold dictGet
    rcases List.mem_cons.1 h with h1 | h1
    · simp only [Prod.mk.injEq] at h1
      rw [if_pos h1.1.symm, h1.2]
    · have hk : k0 ≠ k := by
        intro e
        apply hn.1
        rw [e]
        exact List.mem_map.2 ⟨(k, v), h1, rfl⟩
      rw [if_neg hk]
      exact ih hn.2 h1

/-- The dates of the group stored under `K` are the dates of the event locations
whose key is `K`. -/
theorem mem_group_dates (el : Dict EventLocation) (hn : (dictKeys el).Nodup)
    (K : String) (group : UniqueLocation)
    (hg : dictGet (buildUniqueLocations el) K = some group) (d : String) :
    d ∈ group.dates ↔ ∃ l, dictGet el d = some l ∧ locationKey l = K := by
  rw [buildUniqueLocations_get] at hg
  rw [groupOf_dates _ _ hg]
  unfold groupEntries
  constructor
  · intro hd
    obtain ⟨e, he, rfl⟩ := List.mem_map.1 hd
    obtain ⟨hmem, hk⟩ := List.mem_filter.1 he
    exact ⟨e.2, dictGet_of_mem el e.1 e.2 hn ((mem_objectEntries el e).1 hmem),
      of_decide_eq_true hk⟩
  · rintro ⟨l, hl, hk⟩
    exact List.mem_map.2 ⟨(d, l), List.mem_filter.2
      ⟨(mem_objectEntries el (d, l)).2 (mem_of_dictGet el d l hl), decide_eq_true hk⟩, rfl⟩

/-- What the grouping does: two event dates end up in the same group exactly when
their event locations have the same location key. -/
theorem sameGroup_iff_key (el : Dict EventLocation) (hn : (dictKeys el).Nodup)
    (d1 d2 : String) (l1 l2 : EventLocation)
    (h1 : dictGet el d1 = some l1) (h2 : dictGet el d2 = some l2) :
    SameGroup (buildUniqueLocations el) d1 d2 ↔ locationKey l1 = locationKey l2 := by
  constructor
  · rintro ⟨K, group, hg, m1, m2⟩
    obtain ⟨a, ha, ka⟩ := (mem_group_dates el hn K group hg d1).1 m1
    obtain ⟨b, hb, kb⟩ := (mem_group_dates el hn K group hg d2).1 m2
    rw [h1] at ha
    rw [h2] at hb
    rw [Option.some.inj ha, Option.some.inj hb, ka, kb]
  · intro hk
    have hne : groupEntries (objectEntries el) (locationKey l1) ≠ [] := by
      intro e
      have : (d1, l1) ∈ groupEntries (objectEntries el) (locationKey l1) :=
        List.mem_filter.2 ⟨(mem_objectEntries el (d1, l1)).2 (mem_of_dictGet el d1 l1 h1),
          decide_eq_true rfl⟩
      rw [e] at this
      simp at this
    cases hg : groupOf (groupEntries (objectEntries el) (locationKey l1)) with
    | none =>
      cases hes : groupEntries (objectEntries el) (locationKey l1) with
      | nil => exact absurd hes hne
      | cons f fs => rw [hes] at hg; simp [groupOf] at hg
    | some group =>
      rw [← buildUniqueLocations_get] at hg
      exact ⟨_, group, hg, (mem_group_dates el hn _ group hg d1).2 ⟨l1, h1, rfl⟩,
        (mem_group_dates el hn _ group hg d2).2 ⟨l2, h2, hk.symm⟩⟩

/-! ## Step 3: the distance requests -/

theorem geocodeTeams_nodup (sv : Services) (teams : List TeamRow) (n : Nat)
    (acc : Dict TeamLocation) (h : (dictKeys acc).Nodup) :
    (dictKeys (geocodeTeams sv teams n acc).1).Nodup := by
  induction teams generalizing n acc with
  | nil => exact h
  | cons team rest ih =>
    unfold geocodeTeams
    split_ifs
    · exact ih _ _ h
    · simp only
      split
      · exact ih _ _ (nodup_keys_dictSet _ _ _ h)
      · exact ih _ _ h

theorem geocodeEvents_nodup (sv : Services) (events : List EventRow) (n : Nat)
    (acc : Dict EventLocation) (h : (dictKeys acc).Nodup) :
    (dictKeys (geocodeEvents sv events n acc).1).Nodup := by
  induction events generalizing n acc with
  | nil => exact h
  | cons event rest ih =>
    unfold geocodeEvents
    split
    · exact ih _ _ (nodup_keys_dictSet _ _ _ h)
    · exact ih _ _ h

theorem runTeamLocations_nodup (sv : Services) (teams : List TeamRow) :
    (dictKeys (runTeamLocations sv teams)).Nodup :=
  geocodeTeams_nodup sv teams 0 [] (by simp [dictKeys])

theorem runEventLocations_nodup (sv : Services) (teams : List TeamRow)
    (events : List EventRow) : (dictKeys (runEventLocations sv teams events)).Nodup :=
  geocodeEvents_nodup sv events _ [] (by simp [dictKeys])

theorem teamDistances_count (sv : Services) (teamLoc : TeamLocation)
    (uls : List (String × UniqueLocation)) (n : Nat) (row : Dict DistanceInfo) :
    (teamDistances sv teamLoc uls n row).2 = n + uls.length := by
  induction uls generalizing n row with
  | nil => rfl
  | cons e uls ih =>
    obtain ⟨K, venueLoc⟩ := e
    unfold teamDistances
    split <;> rw [ih, List.length_cons] <;> omega

theorem teamDistances_frame (sv : Services) (teamLoc : TeamLocation)
    (uls : List (String × UniqueLocation)) (n : Nat) (row : Dict DistanceInfo) (d : String)
    (hd : ∀ e ∈ uls, d ∉ e.2.dates) :
    dictGet (teamDistances sv teamLoc uls n row).1 d = dictGet row d := by
  induction uls generalizing n row with
  | nil => rfl
  | cons e uls ih =>
    obtain ⟨K, venueLoc⟩ := e
    have h0 : d ∉ venueLoc.dates := hd (K, venueLoc) (List.mem_cons_self _ _)
    have h1 : ∀ e ∈ uls, d ∉ e.2.dates := fun e he => hd e (List.mem_cons_of_mem _ he)
    unfold teamDistances
    split
    · rw [ih _ _ h1, fanOut_get, if_neg h0]
    · rw [ih _ _ h1]

/-- The entry of a date comes from the one request made for its group. -/
theorem teamDistances_get (sv : Services) (teamLoc : TeamLocation)
    (pre post : List (String × UniqueLocation)) (K : String) (venueLoc : UniqueLocation)
    (n : Nat) (row : Dict DistanceInfo) (d : String)
    (hd : d ∈ venueLoc.dates)
    (hpre : ∀ e ∈ pre, d ∉ e.2.dates) (hpost : ∀ e ∈ post, d ∉ e.2.dates)
    (hrow : dictGet row d = none) :
    dictGet (teamDistances sv teamLoc (pre ++ (K, venueLoc) :: post) n row).1 d
      = (getDrivingDistance sv (n + pre.length) (teamLoc.lat, teamLoc.lng)
          (venueLoc.loc.lat, venueLoc.loc.lng)).map makeDistanceInfo := by
  induction pre generalizing n row with
  | nil =>
    simp only [List.nil_append, List.length_nil, Nat.add_zero]
    unfold teamDistances
    split
    · rename_i data hdata
      rw [teamDistances_frame _ _ _ _ _ _ hpost, fanOut_get, if_pos hd, hdata]
      rfl
    · rename_i hdata
      rw [teamDistances_frame _ _ _ _ _ _ hpost, hrow, hdata]
      rfl
  | cons e pre ih =>
    obtain ⟨K0, v0⟩ := e
    have h0 : d ∉ v0.dates := hpre (K0, v0) (List.mem_cons_self _ _)
    have h1 : ∀ e ∈ pre, d ∉ e.2.dates := fun e he => hpre e (List.mem_cons_of_mem _ he)
    have hn : n + (pre.length + 1) = n + 1 + pre.length := by omega
    rw [List.cons_append, List.length_cons, hn]
    unfold teamDistances
    split
    · exact ih (n + 1) _ h1 (by rw [fanOut_get, if_neg h0]; exact hrow)
    · exact ih (n + 1) _ h1 hrow

theorem allDistances_count (sv : Services) (ul : Dict UniqueLocation)
    (tl : List (String × TeamLocation)) (n : Nat) (acc : Dict (Dict DistanceInfo)) :
    (allDistances sv ul tl n acc).2 = n + tl.length * (objectEntries ul).length := by
  induction tl generalizing n acc with
  | nil => simp [allDistances]
  | cons e tl ih =>
    obtain ⟨teamName, teamLoc⟩ := e
    unfold allDistances
    simp only
    rw [ih, teamDistances_count, List.length_cons, Nat.add_mul, Nat.one_mul]
    omega

/-- The row of a team is the one built by the requests made for it. -/
theorem allDistances_get (sv : Services) (ul : Dict UniqueLocation)
    (pre post : List (String × TeamLocation)) (T : String) (teamLoc : TeamLocation)
    (n : Nat) (acc : Dict (Dict DistanceInfo)) (hpost : T ∉ dictKeys post) :
    dictGet (allDistances sv ul (pre ++ (T, teamLoc) :: post) n acc).1 T
      = some (teamDistances sv teamLoc (objectEntries ul)
          (n + pre.length * (objectEntries ul).length) []).1 := by
  induction pre generalizing n acc with
  | nil =>
    simp only [List.nil_append, List.length_nil, Nat.zero_mul, Nat.add_zero]
    unfold allDistances
    simp only
    rw [allDistances_frame _ _ _ _ _ _ hpost, dictGet_dictSet, if_pos rfl]
  | cons e pre ih =>
    obtain ⟨T0, loc0⟩ := e
    have hn : n + (pre.length + 1) * (objectEntries ul).length
        = n + (objectEntries ul).length + pre.length * (objectEntries ul).length := by
      rw [Nat.add_mul, Nat.one_mul]; omega
    rw [List.cons_append, List.length_cons, hn]
    unfold allDistances
    simp only
    rw [teamDistances_count]
    exact ih _ _

theorem list_split_of_mem {V : Type} (es : List (String × V)) (k : String) (v : V)
    (hn : (dictKeys es).Nodup) (h : (k, v) ∈ es) :
    ∃ pre post, es = pre ++ (k, v) :: post ∧ k ∉ dictKeys pre ∧ k ∉ dictKeys post := by
  obtain ⟨pre, post, e⟩ := List.append_of_mem h
  refine ⟨pre, post, e, ?_, ?_⟩
  · rw [e] at hn
    simp only [dictKeys, List.map_append, List.map_cons] at hn ⊢
    intro hm
    exact (List.nodup_append.1 hn).2.2 hm (List.mem_cons_self _ _)
  · rw [e] at hn
    simp only [dictKeys, List.map_append, List.map_cons] at hn ⊢
    exact (List.nodup_cons.1 (List.nodup_append.1 hn).2.1).1

theorem step3_entry (sv : Services) (ul : Dict UniqueLocation)
    (tpre tpost : List (String × TeamLocation))
    (pre post : List (String × UniqueLocation)) (T K : String) (teamLoc : TeamLocation)
    (venueLoc : UniqueLocation) (n : Nat) (d : String)
    (hul : objectEntries ul = pre ++ (K, venueLoc) :: post)
    (hT : T ∉ dictKeys tpost) (hd : d ∈ venueLoc.dates)
    (hpre : ∀ e ∈ pre, d ∉ e.2.dates) (hpost : ∀ e ∈ post, d ∉ e.2.dates) :
    distanceEntry (allDistances sv ul (tpre ++ (T, teamLoc) :: tpost) n []).1 T d
      = (getDrivingDistance sv
          (n + tpre.length * (objectEntries ul).length + pre.length)
          (teamLoc.lat, teamLoc.lng) (venueLoc.loc.lat, venueLoc.loc.lng)).map
          makeDistanceInfo := by
  unfold distanceEntry
  rw [allDistances_get _ _ _ _ _ _ _ _ hT, Option.some_bind, hul]
  exact teamDistances_get sv teamLoc pre post K venueLoc _ [] d hd hpre hpost rfl

theorem getElem?_middle {α : Type} (pre post : List α) (a : α) :
    (pre ++ a :: post)[pre.length]? = some a := by
  induction pre with
  | nil => simp
  | cons b pre ih => simpa using ih

/-- C9, against the claim as stated: three events are geocoded, X Track and
Y Park in Spokane on two dates and Z Field in Yakima on the date of the first.
The later event replaces the first under their common date, so the two Spokane
events, with distinct dates and the same city and state, get different distance
entries for Seattle: the date of the first carries the distance to Yakima. -/
theorem repeated_date_distances_differ :
    repeatedDateEvents.map (fun e => (e.event_date, e.venue, e.city, e.state))
      = [("2024-04-06", "X Track", "Spokane", "WA"), ("2024-04-13", "Y Park", "Spokane", "WA"),
         ("2024-04-06", "Z Field", "Yakima", "WA")]
    ∧ (geocodeAddress repeatedDateServices 1 "X Track, Spokane, WA").isSome = true
    ∧ (geocodeAddress repeatedDateServices 2 "Y Park, Spokane, WA").isSome = true
    ∧ (geocodeAddress repeatedDateServices 3 "Z Field, Yakima, WA").isSome = true
    ∧ (runEventLocations repeatedDateServices exampleTeams repeatedDateEvents).map
        (fun e => (e.1, e.2.venue, e.2.city, e.2.state))
      = [("2024-04-06", "Z Field", "Yakima", "WA"), ("2024-04-13", "Y Park", "Spokane", "WA")]
    ∧ distanceEntry (runDistances repeatedDateServices exampleTeams repeatedDateEvents)
        "Seattle" "2024-04-06" = some yakimaDistanceInfo
    ∧ distanceEntry (runDistances repeatedDateServices exampleTeams repeatedDateEvents)
        "Seattle" "2024-04-13" = some exampleDistanceInfo
    ∧ yakimaDistanceInfo.distance_text ≠ exampleDistanceInfo.distance_text
    ∧ yakimaDistanceInfo.one_way_miles ≠ exampleDistanceInfo.one_way_miles :=
  ⟨by decide, by decide, by decide, by decide, by decide, rfl, rfl, by decide,
   by simp only [yakimaDistanceInfo, exampleDistanceInfo]; norm_num⟩

/-- C9, amended: for a team with a team location and two entries of the event
location mapping with distinct event dates and the same city and state (whatever
their venues), the distance mapping built in step 3 has the same entry, or no
entry, for both dates: both are the answer of one request, the one made for the
team and the group of that city and state, passed through `makeDistanceInfo`.
Step 3 makes one request per pair of a team location and a group: team locations
and groups have distinct keys, the request of the `i`-th team for the `j`-th
group, in the order of `Object.entries`, is the one numbered `i * groups + j`
after the requests of steps 1 and 2, and `teams * groups` requests are made in
all. -/
theorem shared_venue_distance (sv : Services) (teams : List TeamRow) (events : List EventRow)
    (T : String) (teamLoc : TeamLocation) (d1 d2 : String) (l1 l2 : EventLocation)
    (hT : dictGet (runTeamLocations sv teams) T = some teamLoc)
    (h1 : dictGet (runEventLocations sv teams events) d1 = some l1)
    (h2 : dictGet (runEventLocations sv teams events) d2 = some l2)
    (_hne : d1 ≠ d2) (hcity : l1.city = l2.city) (hstate : l1.state = l2.state) :
    distanceEntry (runDistances sv teams events) T d1
      = distanceEntry (runDistances sv teams events) T d2
    ∧ (∃ (i j : Nat) (venueLoc : UniqueLocation),
        (objectEntries (runTeamLocations sv teams))[i]? = some (T, teamLoc)
        ∧ (objectEntries (buildUniqueLocations (runEventLocations sv teams events)))[j]?
            = some (locationKey l1, venueLoc)
        ∧ d1 ∈ venueLoc.dates ∧ d2 ∈ venueLoc.dates
        ∧ distanceEntry (runDistances sv teams events) T d1
            = (getDrivingDistance sv
                (runRequestsBeforeStep3 sv teams events
                  + i * (objectEntries
                      (buildUniqueLocations (runEventLocations sv teams events))).length + j)
                (teamLoc.lat, teamLoc.lng) (venueLoc.loc.lat, venueLoc.loc.lng)).map
                makeDistanceInfo
        ∧ distanceEntry (runDistances sv teams events) T d2
            = (getDrivingDistance sv
                (runRequestsBeforeStep3 sv teams events
                  + i * (objectEntries
                      (buildUniqueLocations (runEventLocations sv teams events))).length + j)
                (teamLoc.lat, teamLoc.lng) (venueLoc.loc.lat, venueLoc.loc.lng)).map
                makeDistanceInfo)
    ∧ (dictKeys (runTeamLocations sv teams)).Nodup
    ∧ (dictKeys (buildUniqueLocations (runEventLocations sv teams events))).Nodup
    ∧ (calculateDistances sv (runTeamLocations sv teams)
          (buildUniqueLocations (runEventLocations sv teams events))
          (runRequestsBeforeStep3 sv teams events)).2
        = runRequestsBeforeStep3 sv teams events
          + (objectEntries (runTeamLocations sv teams)).length
            * (objectEntries
                (buildUniqueLocations (runEventLocations sv teams events))).length := by
  have hel := runEventLocations_nodup sv teams events
  have htl := runTeamLocations_nodup sv teams
  have hul := buildUniqueLocations_nodup (runEventLocations sv teams events)
  have hule := objectEntries_nodup _ hul
  have htle := objectEntries_nodup _ htl
  have hk : locationKey l1 = locationKey l2 := by
    unfold locationKey; rw [hcity, hstate]
  obtain ⟨K, group, hg, m1, m2⟩ := (sameGroup_iff_key _ hel d1 d2 l1 l2 h1 h2).2 hk
  have hK : K = locationKey l1 := by
    obtain ⟨l, hl, e⟩ := (mem_group_dates _ hel K group hg d1).1 m1
    rw [h1] at hl
    rw [← e, Option.some.inj hl]
  subst hK
  -- a date of this group is in no other group
  have hother : ∀ (d : String) (l : EventLocation),
      dictGet (runEventLocations sv teams events) d = some l →
      locationKey l = locationKey l1 →
      ∀ e ∈ objectEntries (buildUniqueLocations (runEventLocations sv teams events)),
        d ∈ e.2.dates → e.1 = locationKey l1 := by
    intro d l hl hkl e he hd
    have hge := dictGet_of_mem _ e.1 e.2 hul ((mem_objectEntries _ e).1 he)
    obtain ⟨l0, hl0, e0⟩ := (mem_group_dates _ hel e.1 e.2 hge d).1 hd
    rw [hl] at hl0
    rw [← e0, ← Option.some.inj hl0, hkl]
  obtain ⟨pre, post, hsplit, hpre, hpost⟩ := list_split_of_mem _ _ _ hule
    ((mem_objectEntries _ _).2 (mem_of_dictGet _ _ _ hg))
  obtain ⟨tpre, tpost, htsplit, _, htpost⟩ := list_split_of_mem _ _ _ htle
    ((mem_objectEntries _ _).2 (mem_of_dictGet _ _ _ hT))
  have hnot : ∀ (d : String) (l : EventLocation),
      dictGet (runEventLocations sv teams events) d = some l →
      locationKey l = locationKey l1 →
      (∀ e ∈ pre, d ∉ e.2.dates) ∧ (∀ e ∈ post, d ∉ e.2.dates) := by
    intro d l hl hkl
    constructor
    · intro e he hd
      have hmem : e ∈ objectEntries
          (buildUniqueLocations (runEventLocations sv teams events)) := by
        rw [hsplit]; exact List.mem_append_left _ he
      have := hother d l hl hkl e hmem hd
      exact hpre (this ▸ List.mem_map.2 ⟨e, he, rfl⟩)
    · intro e he hd
      have hmem : e ∈ objectEntries
          (buildUniqueLocations (runEventLocations sv teams events)) := by
        rw [hsplit]; exact List.mem_append_right _ (List.mem_cons_of_mem _ he)
      have := hother d l hl hkl e hmem hd
      exact hpost (this ▸ List.mem_map.2 ⟨e, he, rfl⟩)
  obtain ⟨p1, q1⟩ := hnot d1 l1 h1 rfl
  obtain ⟨p2, q2⟩ := hnot d2 l2 h2 hk.symm
  have e1 := step3_entry sv _ tpre tpost pre post T (locationKey l1) teamLoc group
    (runRequestsBeforeStep3 sv teams events) d1 hsplit htpost m1 p1 q1
  have e2 := step3_entry sv _ tpre tpost pre post T (locationKey l1) teamLoc group
    (runRequestsBeforeStep3 sv teams events) d2 hsplit htpost m2 p2 q2
  rw [← htsplit] at e1 e2
  have r1 : distanceEntry (runDistances sv teams events) T d1 = _ := e1
  have r2 : distanceEntry (runDistances sv teams events) T d2 = _ := e2
  refine ⟨by rw [r1, r2], ⟨tpre.length, pre.length, group, ?_, ?_, m1, m2, r1, r2⟩,
    htl, hul, allDistances_count _ _ _ _ _⟩
  · rw [htsplit]; exact getElem?_middle _ _ _
  · rw [hsplit]; exact getElem?_middle _ _ _

/-- Two events at different venues of Spokane, WA get the same distance entry for
Seattle. -/
theorem shared_venue_distance_witness :
    dictGet (runTeamLocations exampleServices exampleTeams) "Seattle"
      = some exampleTeamLocation
    ∧ dictGet (runEventLocations exampleServices exampleTeams sharedCityEvents) "2024-04-06"
      = some sharedCityLocation1
    ∧ dictGet (runEventLocations exampleServices exampleTeams sharedCityEvents) "2024-04-13"
      = some sharedCityLocation2
    ∧ sharedCityLocation1.venue ≠ sharedCityLocation2.venue
    ∧ distanceEntry (runDistances exampleServices exampleTeams sharedCityEvents)
        "Seattle" "2024-04-06" = some exampleDistanceInfo
    ∧ distanceEntry (runDistances exampleServices exampleTeams sharedCityEvents)
        "Seattle" "2024-04-06"
      = distanceEntry (runDistances exampleServices exampleTeams sharedCityEvents)
        "Seattle" "2024-04-13" :=
  ⟨rfl, rfl, rfl, by decide, rfl,
   (shared_venue_distance exampleServices exampleTeams sharedCityEvents "Seattle"
      exampleTeamLocation "2024-04-06" "2024-04-13" sharedCityLocation1 sharedCityLocation2
      rfl rfl rfl (by decide) rfl rfl).1⟩

/-- The order of `Object.entries`: a team named "42" is enumerated, and its
distances are requested, before the team "Seattle" that precedes it in the
roster. -/
theorem objectEntries_index_first :
    dictKeys (runTeamLocations exampleServices numberedTeams) = ["Seattle", "42"]
    ∧ objectKeys (runTeamLocations exampleServices numberedTeams) = ["42", "Seattle"]
    ∧ arrayIndex "42" = some 42
    ∧ arrayIndex "Seattle" = none
    ∧ arrayIndex "2024-04-06" = none
    ∧ arrayIndex "042" = none := by
  decide

/-- C10, at a failing input: two geocoded events, one in city "Walla_Walla" of
state "WA" and one in city "Walla" of state "Walla_WA", differ in city and in
state, yet both get the location key "Walla_Walla_WA": they are merged into a
single group that holds both event dates under the location of the first. -/
theorem colliding_keys_merged :
    (runEventLocations exampleServices exampleTeams collidingEvents).map
        (fun e => (e.1, e.2.city, e.2.state))
      = [("2024-04-06", "Walla_Walla", "WA"), ("2024-04-13", "Walla", "Walla_WA")]
    ∧ (buildUniqueLocations
        (runEventLocations exampleServices exampleTeams collidingEvents)).map
        (fun g => (g.1, g.2.loc.city, g.2.loc.state, g.2.dates))
      = [("Walla_Walla_WA", "Walla_Walla", "WA", ["2024-04-06", "2024-04-13"])]
    ∧ SameGroup
        (buildUniqueLocations (runEventLocations exampleServices exampleTeams collidingEvents))
        "2024-04-06" "2024-04-13" :=
  ⟨by decide, by decide, ⟨"Walla_Walla_WA", _, rfl, by decide, by decide⟩⟩

/-! ## The groups are enumerated in the order in which they were created -/

theorem arrayIndex_locationKey (l : EventLocation) : arrayIndex (locationKey l) = none := by
  have hmem : '_' ∈ (locationKey l).data := by
    unfold locationKey
    simp [String.data_append]
  unfold arrayIndex
  cases hk : (locationKey l).data with
  | nil => rfl
  | cons c cs =>
    simp only
    split_ifs
    · rfl
    · rw [hk] at hmem
      rw [decimalValue_none (c :: cs) 0 '_' hmem (by decide)]

theorem objectEntries_of_no_index {V : Type} (o : Dict V)
    (h : ∀ e ∈ o, arrayIndex e.1 = none) : objectEntries o = o := by
  unfold objectEntries
  have h1 : o.filter (fun e => (arrayIndex e.1).isSome) = [] := by
    rw [List.filter_eq_nil_iff]
    intro e he
    simp [h e he]
  have h2 : o.filter (fun e => !(arrayIndex e.1).isSome) = o := by
    rw [List.filter_eq_self]
    intro e he
    simp [h e he]
  rw [h1, h2]
  rfl

theorem foldl_addUniqueLocation_keys (es : List (String × EventLocation)) :
    ∀ k ∈ dictKeys (es.foldl addUniqueLocation []), ∃ l, k = locationKey l := by
  induction es using List.reverseRecOn with
  | nil => intro k hk; simp [dictKeys] at hk
  | append_singleton es e ih =>
    intro k hk
    rw [List.foldl_append] at hk
    have hk2 : k ∈ dictKeys (addUniqueLocation (es.foldl addUniqueLocation []) e) := hk
    unfold addUniqueLocation at hk2
    split at hk2 <;>
      rcases (mem_keys_dictSet _ _ _ k).1 hk2 with e1 | e1
    · exact ⟨e.2, e1⟩
    · exact ih k e1
    · exact ⟨e.2, e1⟩
    · exact ih k e1

/-- A location key holds an underscore, so it is never an array index, and
`Object.entries(uniqueLocations)` lists the groups in the order in which they
were created. -/
theorem objectEntries_buildUniqueLocations (el : Dict EventLocation) :
    objectEntries (buildUniqueLocations el) = buildUniqueLocations el := by
  apply objectEntries_of_no_index
  intro e he
  obtain ⟨l, hl⟩ := foldl_addUniqueLocation_keys (objectEntries el) e.1
    (List.mem_map.2 ⟨e, he, rfl⟩)
  rw [hl]
  exact arrayIndex_locationKey l

/-! ## The order of the keys does not matter to the matcher -/

theorem probeOffsets_congr (h : Host) (d : JSDate) (E1 E2 : List String)
    (hE : ∀ x, x ∈ E1 ↔ x ∈ E2) (ks : List Int) :
    probeOffsets h d E1 ks = probeOffsets h d E2 ks := by
  induction ks with
  | nil => rfl
  | cons k ks ih =>
    unfold probeOffsets
    by_cases hk : k = 0
    · rw [if_pos hk, if_pos hk, ih]
    · rw [if_neg hk, if_neg hk]
      simp only
      split
      · rfl
      · rename_i iso _
        by_cases hm : splitT0 iso ∈ E1
        · rw [if_pos hm, if_pos ((hE _).1 hm)]
        · rw [if_neg hm, if_neg (fun h2 => hm ((hE _).2 h2)), ih]

/-- The matcher answers the same on `Object.keys(eventLocations)` as on the keys
in the order in which they were created. -/
theorem findMatchingEventDate_objectKeys (h : Host) (s : String) (el : Dict EventLocation) :
    findMatchingEventDate h s (objectKeys el) = findMatchingEventDate h s (dictKeys el) := by
  have hE := mem_objectKeys el
  unfold findMatchingEventDate
  simp only
  by_cases hm : s ∈ objectKeys el
  · rw [if_pos hm, if_pos ((hE _).1 hm)]
  · rw [if_neg hm, if_neg (fun h2 => hm ((hE _).2 h2)),
      probeOffsets_congr h _ _ _ hE]


end WSCL
